import Mathlib

set_option maxRecDepth 8000

/-!
Shallow embedding of the oite bytecode VM (src/src/vm/mod.rs) and proofs
about the spec's claims concerning it.

Conventions:
* Rust `Vec` stacks (operand stack, call stack, exception handler stack)
  are Lean `List`s with the head being the TOP (most recently pushed)
  element; `Vec::push`/`pop` become cons / head-tail.
* `usize` is `Nat`; the `usize::MAX` stop sentinel is the constant
  `usizeMax` below.
* `std::time::Instant` is a `Nat` (milliseconds).
* `HashMap<String, JsValue>` is an association list (`SMap`) whose lookup
  takes the first matching key and whose insert replaces in place or
  appends; iteration over a `HashMap` (whose keys are unique) is modelled
  as a fold over the association list.
* Rust `f64` is modelled by the inductive `F64` below: NaN, signed
  infinities, and finite values as exact rationals.  Negative zero is
  identified with zero and finite-arithmetic rounding/overflow is
  abstracted by exact rational arithmetic; none of the proved claims
  depends on rounding, on signed zero, or on decimal float
  formatting/parsing (the latter two are given computable stand-ins).
-/

/-- The `usize::MAX` sentinel (64-bit). -/
def usizeMax : Nat := 2 ^ 64 - 1

/-! ## A model of `f64` -/

/-- Model of Rust `f64`: NaN, infinities (`neg = true` for `-inf`), and
finite values as exact rationals (`-0.0` identified with `0`). -/
inductive F64 where
  | nan : F64
  | inf (neg : Bool) : F64
  | fin (q : ℚ) : F64
  deriving DecidableEq, Repr

namespace F64

/-- IEEE `==` on floats: NaN compares unequal to everything (itself included). -/
def feq : F64 → F64 → Bool
  | nan, _ => false
  | _, nan => false
  | inf a, inf b => a == b
  | fin a, fin b => a == b
  | _, _ => false

/-- IEEE `is_nan`. -/
def isNaN : F64 → Bool
  | nan => true
  | _ => false

def fneg : F64 → F64
  | nan => nan
  | inf s => inf (!s)
  | fin q => fin (-q)

def fadd : F64 → F64 → F64
  | nan, _ => nan
  | _, nan => nan
  | inf a, inf b => if a == b then inf a else nan
  | inf a, fin _ => inf a
  | fin _, inf b => inf b
  | fin a, fin b => fin (a + b)

def fsub (a b : F64) : F64 := fadd a (fneg b)

def fmul : F64 → F64 → F64
  | nan, _ => nan
  | _, nan => nan
  | inf a, inf b => inf (a != b)
  | inf a, fin q => if q = 0 then nan else inf (a != decide (q < 0))
  | fin q, inf b => if q = 0 then nan else inf (b != decide (q < 0))
  | fin a, fin b => fin (a * b)

def fdiv : F64 → F64 → F64
  | nan, _ => nan
  | _, nan => nan
  | inf _, inf _ => nan
  | inf a, fin q => inf (a != decide (q < 0))
  | fin _, inf _ => fin 0
  | fin a, fin b =>
      if b = 0 then (if a = 0 then nan else inf (decide (a < 0)))
      else fin (a / b)

/-- Truncation of a rational toward zero (the rounding used by Rust's
`%` on floats and by `as usize` casts). -/
def qtrunc (q : ℚ) : Int := Int.tdiv q.num (Int.ofNat q.den)

/-- Rust `%` on floats (remainder with the dividend's sign). -/
def fmod : F64 → F64 → F64
  | nan, _ => nan
  | _, nan => nan
  | inf _, _ => nan
  | fin a, inf _ => fin a
  | fin a, fin b => if b = 0 then nan else fin (a - b * (qtrunc (a / b) : ℚ))

def flt : F64 → F64 → Bool
  | nan, _ => false
  | _, nan => false
  | inf a, inf b => a && !b
  | inf a, fin _ => a
  | fin _, inf b => !b
  | fin a, fin b => decide (a < b)

def fle (a b : F64) : Bool := flt a b || feq a b

def fgt (a b : F64) : Bool := flt b a

def fge (a b : F64) : Bool := fle b a

/-- Rust's saturating `as usize` cast from `f64`. -/
def toUsize : F64 → Nat
  | nan => 0
  | inf true => 0
  | inf false => usizeMax
  | fin q => if q < 0 then 0 else min (qtrunc q).toNat usizeMax

/-- Computable stand-in for Rust's shortest round-trip float formatting
(`f64::to_string`).  No proved claim depends on the exact rendering. -/
def toStr : F64 → String
  | nan => "NaN"
  | inf true => "-inf"
  | inf false => "inf"
  | fin q => if q.den = 1 then toString q.num else toString q

/-- Computable stand-in for Rust's `str::parse::<f64>`: accepts an
optional sign, digits, and an optional fractional part.  No proved claim
depends on parsing. -/
def parse (s : String) : Option F64 :=
  let chars := s.toList
  let (negSign, rest) :=
    match chars with
    | '-' :: r => (true, r)
    | '+' :: r => (false, r)
    | r => (false, r)
  let intPart := rest.takeWhile Char.isDigit
  let rest2 := rest.dropWhile Char.isDigit
  let (fracPart, rest3) :=
    match rest2 with
    | '.' :: r => (r.takeWhile Char.isDigit, r.dropWhile Char.isDigit)
    | r => ([], r)
  if intPart.isEmpty && fracPart.isEmpty then none
  else if !rest3.isEmpty then none
  else
    let digitsVal (l : List Char) : Nat :=
      l.foldl (fun acc c => acc * 10 + (c.toNat - '0'.toNat)) 0
    let ip : ℚ := (digitsVal intPart : ℚ)
    let fp : ℚ := (digitsVal fracPart : ℚ) / ((10 : ℚ) ^ fracPart.length)
    let v := ip + fp
    some (fin (if negSign then -v else v))

/-- `f64::EPSILON`. -/
def epsilon : ℚ := 1 / 2 ^ 52

def fabs : F64 → F64
  | nan => nan
  | inf _ => inf false
  | fin q => fin |q|

end F64

/-! ## Values, heap data, opcodes -/

/-- Modelled from the spec: the tagged `JsValue` sum of src/src/vm/value.rs
(the file itself is not under src/; its variants are fixed by spec section 3
and by every `JsValue::...` use in src/src/vm/mod.rs). -/
inductive JsValue where
  | undefined : JsValue
  | null : JsValue
  | boolean (b : Bool) : JsValue
  | number (n : F64) : JsValue
  | string (s : String) : JsValue
  | object (ptr : Nat) : JsValue
  | function (address : Nat) (env : Option Nat) : JsValue
  | nativeFunction (idx : Nat) : JsValue
  | promise (ptr : Nat) : JsValue
  | accessor (getter setter : Nat) : JsValue
  deriving DecidableEq, Repr

/-- Association-list model of `HashMap<String, JsValue>`. -/
abbrev SMap := List (String × JsValue)

namespace SMap

def get? (m : SMap) (k : String) : Option JsValue :=
  (m.find? (fun p => p.1 == k)).map (·.2)

def containsKey (m : SMap) (k : String) : Bool :=
  (m.find? (fun p => p.1 == k)).isSome

/-- `HashMap::insert`: replace the binding in place, or append. -/
def insert (m : SMap) (k : String) (v : JsValue) : SMap :=
  if m.containsKey k then
    m.map (fun p => if p.1 == k then (k, v) else p)
  else
    m ++ [(k, v)]

/-- `HashMap::remove`: returns the removed value, if any. -/
def removeGet (m : SMap) (k : String) : Option JsValue × SMap :=
  (m.get? k, m.filter (fun p => !(p.1 == k)))

end SMap

/-- Modelled from the spec: heap object payloads of src/src/vm/value.rs
(the file itself is not under src/; variants fixed by spec section 3 and
their uses in src/src/vm/mod.rs). -/
inductive HeapData where
  | Object (props : SMap) : HeapData
  | Array (elements : List JsValue) : HeapData
  | ByteStream (bytes : List Nat) : HeapData
  deriving DecidableEq, Repr

/-- `struct HeapObject { data: HeapData }`. -/
structure HeapObject where
  data : HeapData
  deriving DecidableEq, Repr

/-- Modelled from the spec: the opcode enum of src/src/vm/opcodes.rs (the
file itself is not under src/; the variant list is exactly the set of arms
of the `exec_one` dispatch in src/src/vm/mod.rs, which has no catch-all). -/
inductive OpCode where
  | NewObject : OpCode
  | NewObjectWithProto : OpCode
  | SetProp (name : String) : OpCode
  | GetProp (name : String) : OpCode
  | Push (v : JsValue) : OpCode
  | Let (name : String) : OpCode
  | Store (name : String) : OpCode
  | Load (name : String) : OpCode
  | LoadThis : OpCode
  | Call (argCount : Nat) : OpCode
  | Return : OpCode
  | Drop (name : String) : OpCode
  | Add : OpCode
  | And : OpCode
  | Or : OpCode
  | Not : OpCode
  | Neg : OpCode
  | Sub : OpCode
  | Mul : OpCode
  | Div : OpCode
  | Print : OpCode
  | Pop : OpCode
  | Jump (address : Nat) : OpCode
  | JumpIfFalse (target : Nat) : OpCode
  | Dup : OpCode
  | Swap : OpCode
  | Swap3 : OpCode
  | Eq : OpCode
  | EqEq : OpCode
  | Ne : OpCode
  | NeEq : OpCode
  | Lt : OpCode
  | LtEq : OpCode
  | Gt : OpCode
  | GtEq : OpCode
  | Mod : OpCode
  | StoreElement : OpCode
  | NewArray (size : Nat) : OpCode
  | LoadElement : OpCode
  | Halt : OpCode
  | MakeClosure (address : Nat) : OpCode
  | Construct (argCount : Nat) : OpCode
  | Require : OpCode
  | CallMethod (name : String) (argCount : Nat) : OpCode
  | StoreLocal (idx : Nat) : OpCode
  | LoadLocal (idx : Nat) : OpCode
  | SetupTry (catch_addr finally_addr : Nat) : OpCode
  | PopTry : OpCode
  | Throw : OpCode
  | EnterFinally (rethrow : Bool) : OpCode
  | SetProto : OpCode
  | LoadSuper : OpCode
  | CallSuper (argCount : Nat) : OpCode
  | GetSuperProp (name : String) : OpCode
  | GetPrivateProp (fieldIndex : Nat) : OpCode
  | SetPrivateProp (fieldIndex : Nat) : OpCode
  deriving Repr

/-- The derived `PartialEq` on `JsValue` (`a == b` in the Rust source):
structural, with IEEE equality on numbers. -/
def jsEq : JsValue → JsValue → Bool
  | .undefined, .undefined => true
  | .null, .null => true
  | .boolean a, .boolean b => a == b
  | .number a, .number b => F64.feq a b
  | .string a, .string b => a == b
  | .object a, .object b => a == b
  | .function a ae, .function b be => a == b && ae == be
  | .nativeFunction a, .nativeFunction b => a == b
  | .promise a, .promise b => a == b
  | .accessor ag as_, .accessor bg bs => ag == bg && as_ == bs
  | _, _ => false

/-! ## VM state -/

namespace Oite

/-- One activation record (`struct Frame`). -/
structure Frame where
  return_address : Nat
  locals : SMap
  indexed_locals : List JsValue
  this_context : JsValue
  deriving DecidableEq, Repr

/-- A queued `(function, args)` pair (`struct Task`). -/
structure Task where
  function_ptr : JsValue
  args : List JsValue
  deriving DecidableEq, Repr

/-- A timer entry (`struct TimerTask`); `due` models the `Instant`. -/
structure TimerTask where
  due : Nat
  task : Task
  deriving DecidableEq, Repr

/-- `struct ExceptionHandler`. -/
structure ExceptionHandler where
  catch_addr : Nat
  finally_addr : Nat
  stack_depth : Nat
  call_stack_depth : Nat
  deriving DecidableEq, Repr

/-- `struct VM`.  The operand stack, call stack and exception-handler
stack are lists with head = top; `task_queue` has head = front.  The
native-function table and the profiling counters are omitted: natives are
host code outside the modelled core and the counters feed no claim.
`function_call_counts` is kept as an association list since `Call`
updates it. -/
structure VM where
  stack : List JsValue
  call_stack : List Frame
  heap : List HeapObject
  task_queue : List Task
  timers : List TimerTask
  program : List OpCode
  modules : SMap
  ip : Nat
  function_call_counts : List (Nat × Nat)
  exception_handlers : List ExceptionHandler
  current_exception : Option JsValue
  deriving Repr

/-- `const MAX_CALL_STACK_DEPTH: usize = 1000`. -/
def MAX_CALL_STACK_DEPTH : Nat := 1000

/-- Fatal (non-throwable) runtime errors: every `panic!` reachable from
`exec_one` and the loop drivers. -/
inductive Fatal where
  | stackOverflow : Fatal
  | uncaughtException (v : JsValue) : Fatal
  | notCallable : Fatal
  | missingValue (what : String) : Fatal
  | badConstruct (what : String) : Fatal
  | methodNotFound (name : String) : Fatal
  | makeClosureNonObject : Fatal
  | setProtoNonObject : Fatal
  | indexOutOfBounds : Fatal
  deriving DecidableEq, Repr

/-- Outcome of one `exec_one` dispatch.  `ok s halted`: the Rust function
returned `Continue`/`ContinueNoIpInc` (all ip bookkeeping already folded
into `s`) or `Stop` (`halted = true`).  `native s idx args` marks a call
into the host's native-function table (outside the modelled core): `s` is
the state at the call and `args` the argument vector in call order; the
host's return value would be pushed and the ip advanced. -/
inductive StepResult where
  | ok (s : VM) (halted : Bool) : StepResult
  | native (s : VM) (idx : Nat) (args : List JsValue) : StepResult
  | fatal (e : Fatal) : StepResult

/-! ## Small state helpers -/

/-- `Vec::truncate(d)` on a stack list (head = top): keep the bottom `d`. -/
def truncTo (d : Nat) (l : List JsValue) : List JsValue :=
  l.drop (l.length - d)

/-- `while v.len() > d { v.pop(); }` on the call stack. -/
def dropFramesTo (d : Nat) (l : List Frame) : List Frame :=
  l.drop (l.length - d)

/-- `record_function_call`: bump the counter for `addr`. -/
def record_function_call (counts : List (Nat × Nat)) (addr : Nat) : List (Nat × Nat) :=
  if (counts.find? (fun p => p.1 == addr)).isSome then
    counts.map (fun p => if p.1 == addr then (addr, p.2 + 1) else p)
  else
    counts ++ [(addr, 1)]

/-- Copy each key/value of a captured-environment object into a frame's
locals (the `for (name, value) in props` loops at the call sites).  The
`HashMap`'s iteration order is unspecified but its keys are unique, so a
left fold over the association list is an exact model. -/
def envCopy (locals : SMap) (props : SMap) : SMap :=
  props.foldl (fun m p => m.insert p.1 p.2) locals

/-- The heap slot `ptr`, when it is an `Object`, as its property map. -/
def heapObjProps? (heap : List HeapObject) (ptr : Nat) : Option SMap :=
  match heap.get? ptr with
  | some ⟨HeapData.Object props⟩ => some props
  | _ => none

/-- `env.and_then(|ptr| self.heap.get(ptr))` followed by the env-copy loop:
returns the frame locals after loading the captured environment (a no-op
unless `env` points at an `Object` heap slot). -/
def loadEnv (heap : List HeapObject) (env : Option Nat) (locals : SMap) : SMap :=
  match env with
  | none => locals
  | some ptr =>
    match heapObjProps? heap ptr with
    | some props => envCopy locals props
    | none => locals

/-- Write through `heap.get_mut(ptr)` when the slot is an `Object`:
apply `f` to its property map (no-op otherwise, like the Rust
`if let` chains). -/
def heapSetProps (heap : List HeapObject) (ptr : Nat) (f : SMap → SMap) :
    List HeapObject :=
  match heap.get? ptr with
  | some ⟨HeapData.Object props⟩ => heap.set ptr ⟨HeapData.Object (f props)⟩
  | _ => heap

/-- Write through `heap.get_mut(ptr)` when the slot is an `Array`. -/
def heapSetArray (heap : List HeapObject) (ptr : Nat)
    (f : List JsValue → List JsValue) : List HeapObject :=
  match heap.get? ptr with
  | some ⟨HeapData.Array arr⟩ => heap.set ptr ⟨HeapData.Array (f arr)⟩
  | _ => heap

/-! ## `get_prop_with_proto_chain` -/

/-- `const MAX_PROTO_DEPTH: usize = 100`. -/
def MAX_PROTO_DEPTH : Nat := 100

/-- The loop body of `VM::get_prop_with_proto_chain`, also returning how
many loop iterations inspected a heap object (the "visits").  The Rust
loop carries an increasing `depth` and breaks once `depth > 100`; here
`fuel = MAX_PROTO_DEPTH + 1 - depth`, so `fuel = 0` is exactly the
`depth > 100` break and the recursion is structural. -/
def get_prop_go (heap : List HeapObject) (name : String) :
    Nat → Nat → JsValue × Nat
  | _, 0 => (JsValue.undefined, 0)
  | ptr, fuel + 1 =>
    match heapObjProps? heap ptr with
    | some props =>
      match props.get? name with
      | some v => (v, 1)
      | none =>
        match props.get? "__proto__" with
        | some (JsValue.object protoPtr) =>
          let r := get_prop_go heap name protoPtr fuel
          (r.1, r.2 + 1)
        | _ => (JsValue.undefined, 1)
    | none => (JsValue.undefined, 1)

/-- `VM::get_prop_with_proto_chain` (src/src/vm/mod.rs lines 366-398). -/
def get_prop_with_proto_chain (heap : List HeapObject) (obj_ptr : Nat)
    (name : String) : JsValue :=
  (get_prop_go heap name obj_ptr (MAX_PROTO_DEPTH + 1)).1

/-- Number of heap objects inspected by one `get_prop_with_proto_chain`
lookup (loop iterations that ran past the depth check). -/
def get_prop_visits (heap : List HeapObject) (obj_ptr : Nat)
    (name : String) : Nat :=
  (get_prop_go heap name obj_ptr (MAX_PROTO_DEPTH + 1)).2

/-! ## Timers and program append -/

/-- `VM::schedule_timer` (mod.rs lines 258-266): push a timer due at
`now + delay_ms` onto the back of the timer vector. -/
def schedule_timer (timers : List TimerTask) (now : Nat) (callback : JsValue)
    (delay_ms : Nat) : List TimerTask :=
  timers ++ [⟨now + delay_ms, ⟨callback, []⟩⟩]

/-- `VM::pump_timers` (mod.rs lines 350-362).  The Rust loop scans the
timer vector left to right, `remove`-ing each due timer and pushing its
task on the back of the task queue; that is exactly this left-to-right
recursion.  Returns (remaining timers, task queue after the appends). -/
def pump_timers (now : Nat) : List TimerTask → List Task →
    List TimerTask × List Task
  | [], queue => ([], queue)
  | t :: rest, queue =>
    if t.due ≤ now then pump_timers now rest (queue ++ [t.task])
    else
      let (rem, q) := pump_timers now rest queue
      (t :: rem, q)

/-- The per-opcode rebasing match inside `VM::append_program`
(mod.rs lines 280-307). -/
def rebase_op (start_offset : Nat) : OpCode → OpCode
  | .Jump addr => .Jump (addr + start_offset)
  | .JumpIfFalse addr => .JumpIfFalse (addr + start_offset)
  | .MakeClosure addr => .MakeClosure (addr + start_offset)
  | .Push (.function address env) => .Push (.function (address + start_offset) env)
  | .SetupTry catch_addr finally_addr =>
    .SetupTry (if catch_addr ≠ 0 then catch_addr + start_offset else 0)
      (if finally_addr ≠ 0 then finally_addr + start_offset else 0)
  | other => other

/-- `VM::append_program` (mod.rs lines 276-313): push each rebased opcode
onto the program, set `ip` to the old length, and return that offset. -/
def append_program (s : VM) (bytecode : List OpCode) : VM × Nat :=
  let start_offset := s.program.length
  let prog := bytecode.foldl (fun acc op => acc ++ [rebase_op start_offset op])
    s.program
  ({ s with program := prog, ip := start_offset }, start_offset)

/-! ## Interpreter helpers -/

/-- `Vec::pop` on the operand stack. -/
def pop? : List JsValue → Option (JsValue × List JsValue)
  | [] => none
  | v :: rest => some (v, rest)

/-- The `for _ in 0..n { args.push(self.stack.pop().expect(..)) }` loops:
collect `n` values top-first, failing like the `expect` if the stack runs
dry.  Returns (popped values in pop order, remaining stack). -/
def popN : Nat → List JsValue → Option (List JsValue × List JsValue)
  | 0, st => some ([], st)
  | _ + 1, [] => none
  | n + 1, v :: rest => (popN n rest).map (fun p => (v :: p.1, p.2))

/-- `for arg in &args { self.stack.push(arg.clone()) }`. -/
def pushAll (st : List JsValue) (args : List JsValue) : List JsValue :=
  args.foldl (fun acc a => a :: acc) st

/-- The string-coercion match used by `Add` when one side is a `String`. -/
def addStr : JsValue → String
  | .number n => F64.toStr n
  | .boolean b => if b then "true" else "false"
  | .null => "null"
  | .undefined => "undefined"
  | .string s => s
  | .object ptr => "Object(" ++ toString ptr ++ ")"
  | .function address _ => "Function(" ++ toString address ++ ")"
  | .nativeFunction idx => "NativeFunction(" ++ toString idx ++ ")"
  | _ => ""

/-- The truthiness match used by `And` and `Or` (mod.rs lines 833-842):
`Boolean(false) | Null | Undefined => false, Number(n) => n != 0.0,
_ => true`.  Note NaN and every string count as truthy here. -/
def andOrTruthy : JsValue → Bool
  | .boolean false => false
  | .null => false
  | .undefined => false
  | .number n => !(F64.feq n (.fin 0))
  | _ => true

/-- The falsiness match used by `Not` (mod.rs lines 865-871). -/
def notFalsy : JsValue → Bool
  | .boolean b => !b
  | .number n => F64.feq n (.fin 0) || F64.isNaN n
  | .null => true
  | .undefined => true
  | .string s => s.isEmpty
  | _ => false

/-- The falsiness match used by `JumpIfFalse` (mod.rs lines 929-934):
`Boolean(b) => !b, Number(n) => n == 0.0, Null | Undefined => true,
_ => false`.  Note NaN and strings (even empty) are NOT falsy here. -/
def jumpIfFalseFalsy : JsValue → Bool
  | .boolean b => !b
  | .number n => F64.feq n (.fin 0)
  | .null => true
  | .undefined => true
  | _ => false

/-- The type-coercion fallback of `EqEq` (after strict equality failed). -/
def eqeqCoerce (a b : JsValue) : Bool :=
  match a, b with
  | .number n, .string s | .string s, .number n =>
    match F64.parse s with
    | some p => F64.flt (F64.fabs (F64.fsub n p)) (.fin F64.epsilon)
    | none => false
  | .boolean true, .number n | .number n, .boolean true =>
    F64.flt (F64.fabs (F64.fsub n (.fin 1))) (.fin F64.epsilon)
  | .boolean false, .number n | .number n, .boolean false =>
    F64.flt (F64.fabs (F64.fsub n (.fin 0))) (.fin F64.epsilon)
  | .null, .undefined | .undefined, .null => true
  | _, _ => false

/-- The type-coercion fallback of `NeEq` (uses `>= EPSILON`, which is not
the boolean negation of the `EqEq` fallback when NaN is involved). -/
def neeqCoerce (a b : JsValue) : Bool :=
  match a, b with
  | .number n, .string s | .string s, .number n =>
    match F64.parse s with
    | some p => F64.fge (F64.fabs (F64.fsub n p)) (.fin F64.epsilon)
    | none => true
  | .boolean true, .number n | .number n, .boolean true =>
    F64.fge (F64.fabs (F64.fsub n (.fin 1))) (.fin F64.epsilon)
  | .boolean false, .number n | .number n, .boolean false =>
    F64.fge (F64.fabs (F64.fsub n (.fin 0))) (.fin F64.epsilon)
  | .null, .undefined | .undefined, .null => false
  | _, _ => true

/-- Rust `str::contains` (substring containment), on char lists. -/
def charsContains : List Char → List Char → Bool
  | [], sub => sub.isEmpty
  | c :: rest, sub => sub.isPrefixOf (c :: rest) || charsContains rest sub

/-- `Vec::insert` at an index, `none` when the index is out of bounds
(where Rust would panic). -/
def listInsertAt (l : List JsValue) (idx : Nat) (x : JsValue) :
    Option (List JsValue) :=
  if idx ≤ l.length then some (l.take idx ++ x :: l.drop idx) else none

/-- Insert `items` one by one at `start`, `start+1`, ... (the splice
re-insertion loop); `none` on the out-of-bounds panic. -/
def insertAllAt (arr : List JsValue) (start : Nat) :
    List JsValue → Option (List JsValue)
  | [] => some arr
  | x :: rest =>
    match listInsertAt arr start x with
    | some arr2 => insertAllAt arr2 (start + 1) rest
    | none => none

/-- `arr.iter().enumerate().skip(from).find(|(_, v)| **v == search)`:
first index `≥ from` whose element is `==` to `search`. -/
def indexOfFrom (arr : List JsValue) (search : JsValue) (from_ : Nat) :
    Option Nat :=
  let rec go : List JsValue → Nat → Option Nat
    | [], _ => none
    | v :: rest, i =>
      if from_ ≤ i && jsEq v search then some i else go rest (i + 1)
  go arr 0

/-- The element-coercion match of the array `join` method. -/
def joinElemStr : JsValue → String
  | .string s => s
  | .number n => F64.toStr n
  | .boolean b => if b then "true" else "false"
  | .null => "null"
  | .undefined => "undefined"
  | _ => ""

/-- `Load`: search the frames innermost to outermost. -/
def loadVar : List Frame → String → Option JsValue
  | [], _ => none
  | f :: fs, name =>
    match f.locals.get? name with
    | some v => some v
    | none => loadVar fs name

/-- The `Store` reassignment loop over `call_stack.iter_mut().rev()`:
assign to the innermost frame that already binds `name`; `none` when no
frame does. -/
def storeVar : List Frame → String → JsValue → Option (List Frame)
  | [], _, _ => none
  | f :: fs, name, v =>
    if f.locals.containsKey name then
      some ({ f with locals := f.locals.insert name v } :: fs)
    else
      (storeVar fs name v).map (f :: ·)

/-- The indexed-locals grow-and-set of `StoreLocal`. -/
def growSet (l : List JsValue) (idx : Nat) (v : JsValue) : List JsValue :=
  (l ++ List.replicate (idx + 1 - l.length) JsValue.undefined).set idx v

/-- Normal fall-through to the end of the dispatch: `self.ip += 1;
ExecResult::Continue`. -/
def contOk (s : VM) : StepResult := .ok { s with ip := s.ip + 1 } false

/-! ## Large opcode arms -/

/-- `OpCode::SetProp` (mod.rs lines 512-576).  The setter probe inspects
the target's OWN property map only; the debug prints are ignored. -/
def execSetProp (s : VM) (name : String) : StepResult :=
  match pop? s.stack with
  | none => .fatal (.missingValue "SetProp value")
  | some (value, st1) =>
    match pop? st1 with
    | some (.object ptr, st2) =>
      let setterAddrAndEnv :=
        match heapObjProps? s.heap ptr with
        | some props =>
          match props.get? ("setter:" ++ name) with
          | some (.function address env) => some (address, env)
          | _ => none
        | none => none
      match setterAddrAndEnv with
      | some (address, env) =>
        let frame : Frame :=
          { return_address := s.ip + 1
            locals := loadEnv s.heap env []
            indexed_locals := []
            this_context := .object ptr }
        .ok { s with stack := value :: st2
                     call_stack := frame :: s.call_stack
                     ip := address } false
      | none =>
        contOk { s with
          stack := st2
          heap := heapSetProps s.heap ptr (fun props => props.insert name value) }
    | some (_, st2) => contOk { s with stack := st2 }
    | none => contOk { s with stack := st1 }

/-- `OpCode::GetProp` (mod.rs lines 578-653). -/
def execGetProp (s : VM) (name : String) : StepResult :=
  match pop? s.stack with
  | some (.object ptr, st) =>
    match s.heap.get? ptr with
    | some ⟨HeapData.Object _⟩ =>
      match get_prop_with_proto_chain s.heap ptr ("getter:" ++ name) with
      | .function address env =>
        let frame : Frame :=
          { return_address := s.ip + 1
            locals := loadEnv s.heap env []
            indexed_locals := []
            this_context := .object ptr }
        .ok { s with stack := st
                     call_stack := frame :: s.call_stack
                     ip := address } false
      | _ =>
        contOk { s with
          stack := get_prop_with_proto_chain s.heap ptr name :: st }
    | some ⟨HeapData.Array arr⟩ =>
      if name = "length" then
        contOk { s with stack := .number (.fin arr.length) :: st }
      else
        contOk { s with stack := .undefined :: st }
    | some ⟨HeapData.ByteStream bytes⟩ =>
      if name = "length" then
        contOk { s with stack := .number (.fin bytes.length) :: st }
      else
        contOk { s with stack := .undefined :: st }
    | none => contOk { s with stack := .undefined :: st }
  | some (.string str, st) =>
    if name = "length" then
      contOk { s with stack := .number (.fin str.utf8ByteSize) :: st }
    else
      contOk { s with stack := .undefined :: st }
  | some (_, st) =>
    -- Function with name "prototype" and every other non-Object,
    -- non-String target (the two remaining source arms) push Undefined.
    contOk { s with stack := .undefined :: st }
  | none => contOk { s with stack := .undefined :: s.stack }

/-- `OpCode::Call` (mod.rs lines 698-754). -/
def execCall (s : VM) (arg_count : Nat) : StepResult :=
  if MAX_CALL_STACK_DEPTH ≤ s.call_stack.length then
    .fatal .stackOverflow
  else
    match pop? s.stack with
    | none => .fatal (.missingValue "callee")
    | some (callee, st1) =>
      match popN arg_count st1 with
      | none => .fatal (.missingValue "argument")
      | some (args, st2) =>
        match callee with
        | .function address env =>
          let argsCallOrder := args.reverse
          let frame : Frame :=
            { return_address := s.ip + 1
              locals := loadEnv s.heap env []
              indexed_locals := []
              this_context := .undefined }
          .ok { s with
            stack := pushAll st2 argsCallOrder
            call_stack := frame :: s.call_stack
            function_call_counts := record_function_call s.function_call_counts address
            ip := address } false
        | .nativeFunction idx =>
          .native { s with stack := st2 } idx args.reverse
        | _ => .fatal .notCallable

/-- `OpCode::Construct` (mod.rs lines 1174-1270). -/
def execConstruct (s : VM) (arg_count : Nat) : StepResult :=
  if MAX_CALL_STACK_DEPTH ≤ s.call_stack.length then
    .fatal .stackOverflow
  else
    match pop? s.stack with
    | none => .fatal (.missingValue "constructor")
    | some (ctorVal, st1) =>
      match popN arg_count st1 with
      | none => .fatal (.missingValue "argument")
      | some (argsPop, st2) =>
        let args := argsPop.reverse
        let ctorInfo : Option (Nat × Option Nat × Option JsValue) :=
          match ctorVal with
          | .function address env => some (address, env, none)
          | .object ptr =>
            match heapObjProps? s.heap ptr with
            | some props =>
              match props.get? "constructor" with
              | some (.function address env) =>
                some (address, env, props.get? "prototype")
              | _ => none
            | none => none
          | _ => none
        match ctorInfo with
        | none => .fatal (.badConstruct "constructor")
        | some (address, env, prototype) =>
          let this_ptr := s.heap.length
          let heap1 := s.heap ++ [⟨HeapData.Object []⟩]
          let heap2 :=
            match prototype with
            | some (.object proto_ptr) =>
              heapSetProps heap1 this_ptr
                (fun props => props.insert "__proto__" (.object proto_ptr))
            | _ => heap1
          let frame : Frame :=
            { return_address := s.ip + 1
              locals := loadEnv heap2 env []
              indexed_locals := []
              this_context := .object this_ptr }
          .ok { s with
            stack := .object this_ptr :: pushAll st2 args
            heap := heap2
            call_stack := frame :: s.call_stack
            ip := address } false

/-- `OpCode::CallSuper` (mod.rs lines 1787-1854).  Note: unlike `Call`,
`Construct` and the `CallMethod` user-function dispatch, this arm has NO
call-stack depth check. -/
def execCallSuper (s : VM) (arg_count : Nat) : StepResult :=
  match pop? s.stack with
  | none => .fatal (.missingValue "super constructor")
  | some (superCtor, st1) =>
    match popN arg_count st1 with
    | none => .fatal (.missingValue "argument")
    | some (argsPop, st2) =>
      let ctorFn : Option JsValue :=
        match superCtor with
        | .function address env => some (.function address env)
        | .object ptr =>
          match heapObjProps? s.heap ptr with
          | some props => some ((props.get? "constructor").getD .undefined)
          | none => some .undefined
        | _ => none
      match ctorFn with
      | none => .fatal (.badConstruct "super")
      | some (.function address env) =>
        match s.call_stack.head? with
        | none => .fatal (.missingValue "frame")
        | some top =>
          let frame : Frame :=
            { return_address := s.ip + 1
              locals := loadEnv s.heap env []
              indexed_locals := []
              this_context := top.this_context }
          .ok { s with
            stack := pushAll st2 argsPop.reverse
            call_stack := frame :: s.call_stack
            ip := address } false
      | some _ => .fatal (.badConstruct "super not function")

/-- `OpCode::Throw` (mod.rs lines 1698-1740). -/
def execThrow (s : VM) : StepResult :=
  let exception := s.stack.head?.getD .undefined
  let st0 := s.stack.tail
  match s.exception_handlers with
  | handler :: restHandlers =>
    let st1 := truncTo handler.stack_depth st0
    let cs1 := dropFramesTo handler.call_stack_depth s.call_stack
    if handler.catch_addr ≠ 0 then
      let st2 := exception :: st1
      let handlers' :=
        if handler.finally_addr ≠ 0 then
          ExceptionHandler.mk 0 handler.finally_addr (st2.length - 1)
            handler.call_stack_depth :: restHandlers
        else restHandlers
      .ok { s with stack := st2
                   call_stack := cs1
                   exception_handlers := handlers'
                   ip := handler.catch_addr } false
    else if handler.finally_addr ≠ 0 then
      .ok { s with stack := st1
                   call_stack := cs1
                   exception_handlers := restHandlers
                   current_exception := some exception
                   ip := handler.finally_addr } false
    else .fatal (.uncaughtException exception)
  | [] => .fatal (.uncaughtException exception)

/-- `OpCode::GetPrivateProp` (mod.rs lines 1888-1943). -/
def execGetPrivateProp (s : VM) (field_index : Nat) : StepResult :=
  match pop? s.stack with
  | none => .fatal (.missingValue "this")
  | some (thisVal, st) =>
    let fieldValue :=
      match thisVal with
      | .object this_ptr =>
        match (heapObjProps? s.heap this_ptr).bind
            (fun props => props.get? "__private_storage__") with
        | some (.object storage_ptr) =>
          match s.heap.get? storage_ptr with
          | some ⟨HeapData.Array field_map⟩ =>
            if field_map.length ≤ field_index then .undefined
            else
              match field_map.get? field_index with
              | some (.object weakmap_ptr) =>
                match heapObjProps? s.heap weakmap_ptr with
                | some fm => (fm.get? (toString this_ptr)).getD .undefined
                | none => .undefined
              | _ => .undefined
          | _ => .undefined
        | _ => .undefined
      | _ => .undefined
    contOk { s with stack := fieldValue :: st }

/-- `OpCode::SetPrivateProp` (mod.rs lines 1945-1996). -/
def execSetPrivateProp (s : VM) (field_index : Nat) : StepResult :=
  match pop? s.stack with
  | none => .fatal (.missingValue "value")
  | some (value, st1) =>
    match pop? st1 with
    | none => .fatal (.missingValue "this")
    | some (thisVal, st2) =>
      match thisVal with
      | .object this_ptr =>
        let weakmapPtr : Option Nat :=
          match (heapObjProps? s.heap this_ptr).bind
              (fun props => props.get? "__private_storage__") with
          | some (.object storage_ptr) =>
            match s.heap.get? storage_ptr with
            | some ⟨HeapData.Array field_map⟩ =>
              if field_index < field_map.length then
                match field_map.get? field_index with
                | some (.object w_ptr) => some w_ptr
                | _ => none
              else none
            | _ => none
          | _ => none
        match weakmapPtr with
        | some w_ptr =>
          contOk { s with stack := st2
                          heap := heapSetProps s.heap w_ptr
                            (fun fm => fm.insert (toString this_ptr) value) }
        | none => contOk { s with stack := st2 }
      | _ => contOk { s with stack := st2 }

/-- The negative-index adjustment used by the string `slice` method:
`if n < 0.0 then (char_count as f64 + n) as usize else n as usize`. -/
def sliceIndex (char_count : Nat) (n : F64) : Nat :=
  if F64.flt n (.fin 0) then F64.toUsize (F64.fadd (.fin char_count) n)
  else F64.toUsize n

/-- `OpCode::CallMethod` (mod.rs lines 1285-1657). -/
def execCallMethod (s : VM) (name : String) (arg_count : Nat) : StepResult :=
  match pop? s.stack with
  | none => .fatal (.missingValue "reciever")
  | some (receiver, st) =>
    match receiver with
    | .string str =>
      -- String methods; unknown names push Undefined without touching args.
      if name = "trim" then
        contOk { s with stack := .string str.trim :: st }
      else if name = "includes" then
        let (searchValue, st2) :=
          match pop? st with
          | some (v, r) => (v, r)
          | none => (.undefined, st)
        let searchStr :=
          match searchValue with
          | .string ss => ss
          | .number n => F64.toStr n
          | .boolean b => if b then "true" else "false"
          | .null => "null"
          | .undefined => "undefined"
          | _ => ""
        let found := charsContains str.toList searchStr.toList
        contOk { s with stack := .boolean found :: st2 }
      else if name = "charCodeAt" then
        let (idxVal, st2) :=
          match pop? st with
          | some (v, r) => (v, r)
          | none => (.number (.fin 0), st)
        match idxVal with
        | .number idx =>
          let code := ((str.toList.get? (F64.toUsize idx)).map Char.toNat).getD 0
          contOk { s with stack := .number (.fin code) :: st2 }
        | _ => contOk { s with stack := st2 }
      else if name = "charAt" then
        let (idxVal, st2) :=
          match pop? st with
          | some (v, r) => (v, r)
          | none => (.number (.fin 0), st)
        match idxVal with
        | .number idx =>
          let ch := ((str.toList.get? (F64.toUsize idx)).map Char.toString).getD ""
          contOk { s with stack := .string ch :: st2 }
        | _ => contOk { s with stack := st2 }
      else if name = "slice" then
        let charCount := str.toList.length
        let (endIdx, st2) :=
          if 1 < arg_count then
            match pop? st with
            | some (.number n, r) => (sliceIndex charCount n, r)
            | some (_, r) => (charCount, r)
            | none => (charCount, st)
          else (charCount, st)
        let (startIdx, st3) :=
          match pop? st2 with
          | some (.number n, r) => (sliceIndex charCount n, r)
          | some (_, r) => (0, r)
          | none => (0, st2)
        let startC := min startIdx charCount
        let endC := max (min endIdx charCount) startC
        let result := String.mk ((str.toList.drop startC).take (endC - startC))
        contOk { s with stack := .string result :: st3 }
      else
        contOk { s with stack := .undefined :: st }
    | .object ptr =>
      let arrayResult : Option StepResult :=
        match s.heap.get? ptr with
        | some ⟨HeapData.Array arr⟩ =>
          if name = "push" then
            match popN arg_count st with
            | none => some (.fatal (.missingValue "argument"))
            | some (argsPop, st2) =>
              let args := argsPop.reverse
              let arr2 := arr ++ args
              some (contOk { s with
                stack := .number (.fin arr2.length) :: st2
                heap := s.heap.set ptr ⟨HeapData.Array arr2⟩ })
          else if name = "pop" then
            let result := arr.getLast?.getD .undefined
            some (contOk { s with
              stack := result :: st
              heap := s.heap.set ptr ⟨HeapData.Array arr.dropLast⟩ })
          else if name = "shift" then
            let result := arr.head?.getD .undefined
            some (contOk { s with
              stack := result :: st
              heap := s.heap.set ptr ⟨HeapData.Array arr.tail⟩ })
          else if name = "unshift" then
            match popN arg_count st with
            | none => some (.fatal (.missingValue "argument"))
            | some (argsPop, st2) =>
              let args := argsPop.reverse
              let arr2 := args ++ arr
              some (contOk { s with
                stack := .number (.fin arr2.length) :: st2
                heap := s.heap.set ptr ⟨HeapData.Array arr2⟩ })
          else if name = "splice" then
            match popN arg_count st with
            | none => some (.fatal (.missingValue "argument"))
            | some (argsPop, st2) =>
              let args := argsPop.reverse
              let start :=
                match args.head? with
                | some (.number n) => F64.toUsize n
                | _ => 0
              let deleteCount :=
                match args.get? 1 with
                | some (.number n) => F64.toUsize n
                | _ => 0
              let itemsToInsert := args.drop 2
              let (deleted, arrDrained) :=
                if start < arr.length then
                  let stop := min (start + deleteCount) arr.length
                  ((arr.drop start).take (stop - start),
                   arr.take start ++ arr.drop stop)
                else ([], arr)
              match insertAllAt arrDrained start itemsToInsert with
              | none => some (.fatal .indexOutOfBounds)
              | some arr2 =>
                let heap1 := s.heap.set ptr ⟨HeapData.Array arr2⟩
                let deleted_ptr := heap1.length
                some (contOk { s with
                  stack := .object deleted_ptr :: st2
                  heap := heap1 ++ [⟨HeapData.Array deleted⟩] })
          else if name = "length" then
            some (contOk { s with stack := .number (.fin arr.length) :: st })
          else if name = "indexOf" then
            let (fromIndex, st2) :=
              if 1 < arg_count then
                match pop? st with
                | some (.number n, r) => (F64.toUsize n, r)
                | some (_, r) => (0, r)
                | none => (0, st)
              else (0, st)
            match pop? st2 with
            | none => some (.fatal (.missingValue "argument for indexOf"))
            | some (searchValue, st3) =>
              let result : F64 :=
                match indexOfFrom arr searchValue fromIndex with
                | some i => .fin i
                | none => .fin (-1)
              some (contOk { s with stack := .number result :: st3 })
          else if name = "includes" then
            match pop? st with
            | none => some (.fatal (.missingValue "argument for includes"))
            | some (searchValue, st2) =>
              let found := arr.any (fun v => jsEq v searchValue)
              some (contOk { s with stack := .boolean found :: st2 })
          else if name = "join" then
            let (separator, st2) :=
              if 0 < arg_count then
                match pop? st with
                | some (.string sep, r) => (sep, r)
                | some (_, r) => (",", r)
                | none => (",", st)
              else (",", st)
            let result := String.intercalate separator (arr.map joinElemStr)
            some (contOk { s with stack := .string result :: st2 })
          else none
        | _ => none
      match arrayResult with
      | some r => r
      | none =>
        match get_prop_with_proto_chain s.heap ptr name with
        | .nativeFunction idx =>
          match popN arg_count st with
          | none => .fatal (.missingValue "argument")
          | some (argsPop, st2) =>
            .native { s with stack := st2 } idx argsPop.reverse
        | .function address env =>
          if MAX_CALL_STACK_DEPTH ≤ s.call_stack.length then
            .fatal .stackOverflow
          else
            match popN arg_count st with
            | none => .fatal (.missingValue "argument")
            | some (argsPop, st2) =>
              let args := argsPop.reverse
              let frame : Frame :=
                { return_address := s.ip + 1
                  locals := loadEnv s.heap env []
                  indexed_locals := []
                  this_context := .object ptr }
              .ok { s with
                stack := pushAll st2 args
                call_stack := frame :: s.call_stack
                ip := address } false
        | _ => .fatal (.methodNotFound name)
    | _ =>
      contOk { s with stack := .undefined :: st }

/-- `VM::exec_one` (mod.rs lines 475-2001): one dispatch step.  All
`self.ip` bookkeeping (the final `ip += 1` on fall-through, the early
`ContinueNoIpInc` returns) is folded into the returned state. -/
def exec_one (s : VM) : StepResult :=
  match s.program.get? s.ip with
  | none => .ok s true
  | some op =>
    match op with
    | .NewObject =>
      let ptr := s.heap.length
      contOk { s with heap := s.heap ++ [⟨HeapData.Object []⟩]
                      stack := .object ptr :: s.stack }
    | .NewObjectWithProto =>
      match pop? s.stack with
      | none => .fatal (.missingValue "prototype")
      | some (proto, st) =>
        let ptr := s.heap.length
        let heap1 := s.heap ++ [⟨HeapData.Object []⟩]
        let heap2 :=
          match proto with
          | .object proto_ptr =>
            heapSetProps heap1 ptr
              (fun props => props.insert "__proto__" (.object proto_ptr))
          | _ => heap1
        contOk { s with heap := heap2, stack := .object ptr :: st }
    | .SetProp name => execSetProp s name
    | .GetProp name => execGetProp s name
    | .Push v => contOk { s with stack := v :: s.stack }
    | .Let name =>
      let (val, st) :=
        match pop? s.stack with
        | some (v, r) => (v, r)
        | none => (.undefined, s.stack)
      match s.call_stack with
      | [] => .fatal (.missingValue "frame")
      | f :: rest =>
        contOk { s with stack := st
                        call_stack := { f with locals := f.locals.insert name val } :: rest }
    | .Store name =>
      let (val, st) :=
        match pop? s.stack with
        | some (v, r) => (v, r)
        | none => (.undefined, s.stack)
      match storeVar s.call_stack name val with
      | some cs => contOk { s with stack := st, call_stack := cs }
      | none =>
        match s.call_stack with
        | [] => .fatal (.missingValue "frame")
        | f :: rest =>
          contOk { s with stack := st
                          call_stack := { f with locals := f.locals.insert name val } :: rest }
    | .Load name =>
      contOk { s with stack := (loadVar s.call_stack name).getD .undefined :: s.stack }
    | .LoadThis =>
      match s.call_stack.head? with
      | none => .fatal (.missingValue "frame")
      | some f => contOk { s with stack := f.this_context :: s.stack }
    | .Call arg_count => execCall s arg_count
    | .Return =>
      match s.call_stack with
      | [] => .fatal (.missingValue "frame")
      | frame :: rest =>
        .ok { s with call_stack := rest, ip := frame.return_address }
          (frame.return_address == usizeMax)
    | .Drop name =>
      match s.call_stack with
      | [] => .fatal (.missingValue "frame")
      | f :: rest =>
        let (removed, locals2) := f.locals.removeGet name
        let heap2 :=
          match removed with
          | some (.object ptr) => heapSetProps s.heap ptr (fun _ => [])
          | _ => s.heap
        contOk { s with call_stack := { f with locals := locals2 } :: rest
                        heap := heap2 }
    | .Add =>
      match s.stack with
      | b :: a :: rest =>
        let result :=
          match a, b with
          | .number an, .number bn => JsValue.number (F64.fadd an bn)
          | .string as_, .string bs => .string (as_ ++ bs)
          | .string as_, b2 => .string (as_ ++ addStr b2)
          | a2, .string bs => .string (addStr a2 ++ bs)
          | _, _ => .undefined
        contOk { s with stack := result :: rest }
      | _ => .fatal (.missingValue "operand")
    | .And =>
      match s.stack with
      | b :: a :: rest =>
        contOk { s with stack := .boolean (andOrTruthy a && andOrTruthy b) :: rest }
      | _ => .fatal (.missingValue "operand")
    | .Or =>
      match s.stack with
      | b :: a :: rest =>
        contOk { s with stack := .boolean (andOrTruthy a || andOrTruthy b) :: rest }
      | _ => .fatal (.missingValue "operand")
    | .Not =>
      let (val, st) :=
        match pop? s.stack with
        | some (v, r) => (v, r)
        | none => (.undefined, s.stack)
      contOk { s with stack := .boolean (notFalsy val) :: st }
    | .Neg =>
      let (val, st) :=
        match pop? s.stack with
        | some (v, r) => (v, r)
        | none => (.undefined, s.stack)
      match val with
      | .number n => contOk { s with stack := .number (F64.fneg n) :: st }
      | _ => contOk { s with stack := .number .nan :: st }
    | .Sub =>
      match s.stack with
      | .number b :: .number a :: rest =>
        contOk { s with stack := .number (F64.fsub a b) :: rest }
      | _ => contOk { s with stack := .undefined :: s.stack.drop 2 }
    | .Mul =>
      match s.stack with
      | .number b :: .number a :: rest =>
        contOk { s with stack := .number (F64.fmul a b) :: rest }
      | _ => contOk { s with stack := .undefined :: s.stack.drop 2 }
    | .Div =>
      match s.stack with
      | .number b :: .number a :: rest =>
        contOk { s with stack := .number (F64.fdiv a b) :: rest }
      | _ => contOk { s with stack := .undefined :: s.stack.drop 2 }
    | .Print =>
      contOk { s with stack := s.stack.tail }
    | .Pop =>
      contOk { s with stack := s.stack.tail }
    | .Jump address => .ok { s with ip := address } false
    | .JumpIfFalse target =>
      let (condition, st) :=
        match pop? s.stack with
        | some (v, r) => (v, r)
        | none => (.undefined, s.stack)
      if jumpIfFalseFalsy condition then
        .ok { s with stack := st, ip := target } false
      else
        contOk { s with stack := st }
    | .Dup =>
      match s.stack.head? with
      | none => .fatal (.missingValue "Stack underflow")
      | some v => contOk { s with stack := v :: s.stack }
    | .Swap =>
      match s.stack with
      | b :: a :: rest => contOk { s with stack := a :: b :: rest }
      | _ => .fatal (.missingValue "Swap operand")
    | .Swap3 =>
      match s.stack with
      | c :: b :: a :: rest => contOk { s with stack := a :: b :: c :: rest }
      | _ => .fatal (.missingValue "Swap3 operand")
    | .Eq =>
      match s.stack with
      | b :: a :: rest =>
        contOk { s with stack := .boolean (jsEq a b) :: rest }
      | _ => .fatal (.missingValue "operand")
    | .EqEq =>
      match s.stack with
      | b :: a :: rest =>
        let r := if jsEq a b then true else eqeqCoerce a b
        contOk { s with stack := .boolean r :: rest }
      | _ => .fatal (.missingValue "operand")
    | .Ne =>
      match s.stack with
      | b :: a :: rest =>
        contOk { s with stack := .boolean (!jsEq a b) :: rest }
      | _ => .fatal (.missingValue "operand")
    | .NeEq =>
      match s.stack with
      | b :: a :: rest =>
        let r := if jsEq a b then false else neeqCoerce a b
        contOk { s with stack := .boolean r :: rest }
      | _ => .fatal (.missingValue "operand")
    | .Lt =>
      match s.stack with
      | .number b :: .number a :: rest =>
        contOk { s with stack := .boolean (F64.flt a b) :: rest }
      | _ => contOk { s with stack := .boolean false :: s.stack.drop 2 }
    | .LtEq =>
      match s.stack with
      | .number b :: .number a :: rest =>
        contOk { s with stack := .boolean (F64.fle a b) :: rest }
      | _ => contOk { s with stack := .boolean false :: s.stack.drop 2 }
    | .Gt =>
      match s.stack with
      | .number b :: .number a :: rest =>
        contOk { s with stack := .boolean (F64.fgt a b) :: rest }
      | _ => contOk { s with stack := .boolean false :: s.stack.drop 2 }
    | .GtEq =>
      match s.stack with
      | .number b :: .number a :: rest =>
        contOk { s with stack := .boolean (F64.fge a b) :: rest }
      | _ => contOk { s with stack := .boolean false :: s.stack.drop 2 }
    | .Mod =>
      match s.stack with
      | .number b :: .number a :: rest =>
        if F64.feq b (.fin 0) then
          contOk { s with stack := .number .nan :: rest }
        else
          contOk { s with stack := .number (F64.fmod a b) :: rest }
      | _ => contOk { s with stack := .number .nan :: s.stack.drop 2 }
    | .StoreElement =>
      match s.stack with
      | index_val :: value :: array_ptr :: rest =>
        match array_ptr, index_val with
        | .object ptr, .number idx =>
          match s.heap.get? ptr with
          | some ⟨HeapData.Array arr⟩ =>
            let i := F64.toUsize idx
            let heap2 :=
              if i < arr.length then s.heap.set ptr ⟨HeapData.Array (arr.set i value)⟩
              else s.heap
            contOk { s with stack := rest, heap := heap2 }
          | _ => contOk { s with stack := rest }
        | _, _ => contOk { s with stack := rest }
      | _ => .fatal (.missingValue "operand")
    | .NewArray size =>
      let ptr := s.heap.length
      contOk { s with heap := s.heap ++ [⟨HeapData.Array (List.replicate size .undefined)⟩]
                      stack := .object ptr :: s.stack }
    | .LoadElement =>
      match s.stack with
      | index_val :: target :: rest =>
        match target, index_val with
        | .object ptr, .number idx =>
          match s.heap.get? ptr with
          | some ⟨HeapData.Array arr⟩ =>
            contOk { s with
              stack := (arr.get? (F64.toUsize idx)).getD .undefined :: rest }
          | _ => contOk { s with stack := rest }
        | .string str, .number idx =>
          let v := ((str.toList.get? (F64.toUsize idx)).map
            (fun c => JsValue.string c.toString)).getD .undefined
          contOk { s with stack := v :: rest }
        | _, _ => contOk { s with stack := .undefined :: rest }
      | _ => .fatal (.missingValue "operand")
    | .Halt => .ok s true
    | .MakeClosure address =>
      match pop? s.stack with
      | none => .fatal (.missingValue "environment object")
      | some (.object ptr, st) =>
        contOk { s with stack := .function address (some ptr) :: st }
      | some (_, _) => .fatal .makeClosureNonObject
    | .Construct arg_count => execConstruct s arg_count
    | .Require =>
      let (moduleName, st) :=
        match pop? s.stack with
        | some (v, r) => (v, r)
        | none => (.undefined, s.stack)
      let module :=
        match moduleName with
        | .string mn => (s.modules.get? mn).getD .undefined
        | _ => .undefined
      contOk { s with stack := module :: st }
    | .CallMethod name arg_count => execCallMethod s name arg_count
    | .StoreLocal idx =>
      let (val, st) :=
        match pop? s.stack with
        | some (v, r) => (v, r)
        | none => (.undefined, s.stack)
      match s.call_stack with
      | [] => .fatal (.missingValue "frame")
      | f :: rest =>
        contOk { s with stack := st
                        call_stack :=
                          { f with indexed_locals := growSet f.indexed_locals idx val } :: rest }
    | .LoadLocal idx =>
      match s.call_stack.head? with
      | none => .fatal (.missingValue "frame")
      | some f =>
        contOk { s with stack := (f.indexed_locals.get? idx).getD .undefined :: s.stack }
    | .SetupTry catch_addr finally_addr =>
      contOk { s with exception_handlers :=
        (ExceptionHandler.mk catch_addr finally_addr s.stack.length
          s.call_stack.length) :: s.exception_handlers }
    | .PopTry =>
      contOk { s with exception_handlers := s.exception_handlers.tail }
    | .Throw => execThrow s
    | .EnterFinally rethrow =>
      if rethrow then
        match s.current_exception with
        | some exc =>
          contOk { s with stack := exc :: s.stack, current_exception := none }
        | none => contOk s
      else contOk s
    | .SetProto =>
      match s.stack with
      | proto :: obj :: rest =>
        match obj with
        | .object obj_ptr =>
          contOk { s with
            stack := .object obj_ptr :: rest
            heap := heapSetProps s.heap obj_ptr
              (fun props => props.insert "__proto__" proto) }
        | _ => .fatal .setProtoNonObject
      | _ => .fatal (.missingValue "SetProto operand")
    | .LoadSuper =>
      let superVal :=
        ((s.call_stack.head?).bind (fun f => f.locals.get? "__super__")).getD .undefined
      contOk { s with stack := superVal :: s.stack }
    | .CallSuper arg_count => execCallSuper s arg_count
    | .GetSuperProp name =>
      match pop? s.stack with
      | none => .fatal (.missingValue "super object")
      | some (superObj, st) =>
        let propVal :=
          match superObj with
          | .object ptr =>
            match heapObjProps? s.heap ptr with
            | some _ => get_prop_with_proto_chain s.heap ptr name
            | none => .undefined
          | _ => .undefined
        contOk { s with stack := propVal :: st }
    | .GetPrivateProp field_index => execGetPrivateProp s field_index
    | .SetPrivateProp field_index => execSetPrivateProp s field_index

/-! ## Spec-side definitions (written from the spec's words, for
comparison with the source-derived definitions above) -/

/-- The spec's truthiness rule (spec section 4.1): falsy exactly on
`false`, `null`, `undefined`, `Number(0)`, `Number(NaN)`, and the empty
string. -/
def specFalsy : JsValue → Bool
  | .boolean false => true
  | .null => true
  | .undefined => true
  | .number n => F64.feq n (.fin 0) || F64.isNaN n
  | .string s => s.isEmpty
  | _ => false

/-- The branching rule `JumpIfFalse` actually implements: only `false`,
`null`, `undefined` and `Number(0)` branch (NaN and all strings,
including the empty string, do not). -/
def jumpFalsySpec : JsValue → Bool
  | .boolean false => true
  | .null => true
  | .undefined => true
  | .number n => F64.feq n (.fin 0)
  | _ => false

/-- The spec's enumeration of address-bearing opcode shapes (spec
section 6: `Jump`, `JumpIfFalse`, `MakeClosure`, `Push(Function)`,
`SetupTry`). -/
def addressBearing : OpCode → Bool
  | .Jump _ => true
  | .JumpIfFalse _ => true
  | .MakeClosure _ => true
  | .Push (.function _ _) => true
  | .SetupTry _ _ => true
  | _ => false

/-- A convenient empty VM used to instantiate universally quantified
theorems in witnesses. -/
def vm0 : VM :=
  { stack := [], call_stack := [], heap := [], task_queue := [],
    timers := [], program := [], modules := [], ip := 0,
    function_call_counts := [], exception_handlers := [],
    current_exception := none }

/-! ## Shared lemmas -/

theorem truncTo_length (d : Nat) (l : List JsValue) (h : d ≤ l.length) :
    (truncTo d l).length = d := by
  simp [truncTo, Nat.sub_sub_self h]

theorem dropFramesTo_length (d : Nat) (l : List Frame) (h : d ≤ l.length) :
    (dropFramesTo d l).length = d := by
  simp [dropFramesTo, Nat.sub_sub_self h]

theorem get_prop_go_visits_le (heap : List HeapObject) (name : String) :
    ∀ fuel ptr, (get_prop_go heap name ptr fuel).2 ≤ fuel := by
  intro fuel
  induction fuel with
  | zero => intro ptr; simp [get_prop_go]
  | succ n ih =>
    intro ptr
    simp only [get_prop_go]
    split
    · split
      · simp
      · split
        · simp
          exact ih _
        · simp
    · simp

theorem rebase_foldl (k : Nat) (ops : List OpCode) :
    ∀ acc : List OpCode,
      ops.foldl (fun acc op => acc ++ [rebase_op k op]) acc =
        acc ++ ops.map (rebase_op k) := by
  induction ops with
  | nil => intro acc; simp
  | cons op rest ih => intro acc; simp [List.foldl_cons, ih]

/-! ## C4: timer pumping order -/

/-- C4 counterexample: with two pending timers both due (the first
scheduled with due 10, the second with due 5), one round of
`pump_timers` at `now = 10` moves them to the task queue in vector
(insertion) order — the due-10 task first — not in due-time order as the
claim states, so the due-5 task's callback runs after the due-10 one. -/
theorem c4_pump_timers_counterexample :
    pump_timers 10
        [⟨10, ⟨.number (.fin 1), []⟩⟩, ⟨5, ⟨.number (.fin 2), []⟩⟩] [] =
      ([], [⟨.number (.fin 1), []⟩, ⟨.number (.fin 2), []⟩]) ∧
    ([⟨.number (.fin 1), []⟩, ⟨.number (.fin 2), []⟩] : List Task) ≠
      [⟨.number (.fin 2), []⟩, ⟨.number (.fin 1), []⟩] := by
  exact ⟨by decide, by decide⟩

/-- C4 (amended): each round of `pump_timers` moves exactly the timers
with `due ≤ now` to the back of the task queue, in the order they occur
in the timer vector (i.e. scheduling order, since `schedule_timer`
appends) — not in due-time order — and keeps the remaining timers in
their original order. -/
theorem c4_pump_timers_insertion_order (now : Nat) (timers : List TimerTask)
    (queue : List Task) :
    pump_timers now timers queue =
      (timers.filter (fun t => !decide (t.due ≤ now)),
       queue ++ (timers.filter (fun t => decide (t.due ≤ now))).map (·.task)) := by
  induction timers generalizing queue with
  | nil => simp [pump_timers]
  | cons t rest ih =>
    by_cases h : t.due ≤ now
    · simp [pump_timers, h, ih]
    · simp [pump_timers, h, ih]

/-! ## C5: prototype-chain lookup bound -/

/-- A one-object heap whose object is its own prototype. -/
def selfLoopHeap : List HeapObject :=
  [⟨HeapData.Object [("__proto__", JsValue.object 0)]⟩]

/-- C5 counterexample: on a cyclic prototype chain with no matching key,
`get_prop_with_proto_chain` inspects 101 heap objects (the guard
`depth > 100` lets depths 0 through 100 through) before giving up with
`Undefined` — not "at most 100" as the claim states. -/
theorem c5_counterexample :
    get_prop_visits selfLoopHeap 0 "x" = 101 ∧
    ¬(get_prop_visits selfLoopHeap 0 "x" ≤ 100) ∧
    get_prop_with_proto_chain selfLoopHeap 0 "x" = .undefined := by
  exact ⟨by decide, by decide, by decide⟩

/-- C5 (amended): prototype-chain lookup terminates on every object
graph (the Lean model is a total structural recursion on the remaining
depth budget) and inspects at most 101 objects — `MAX_PROTO_DEPTH + 1`,
because the `depth > 100` guard admits depths 0..100 inclusive — before
returning. -/
theorem c5_proto_lookup_bounded (heap : List HeapObject) (obj_ptr : Nat)
    (name : String) :
    get_prop_visits heap obj_ptr name ≤ MAX_PROTO_DEPTH + 1 :=
  get_prop_go_visits_le heap name (MAX_PROTO_DEPTH + 1) obj_ptr

/-! ## C7: append_program rebasing -/

/-- C7: `append_program` returns the pre-append program length, sets the
instruction pointer there, appends exactly the rebased opcodes, and
`rebase_op` adjusts precisely the five address-bearing shapes — `Jump`,
`JumpIfFalse`, `MakeClosure`, `Push` of a `Function`, and `SetupTry`
(each field only when nonzero, zero preserved) — leaving every other
opcode unchanged. -/
theorem c7_append_program_rebases (s : VM) (ops : List OpCode) :
    (append_program s ops).2 = s.program.length ∧
    (append_program s ops).1.program =
      s.program ++ ops.map (rebase_op s.program.length) ∧
    (append_program s ops).1.ip = s.program.length ∧
    (∀ k addr, rebase_op k (.Jump addr) = .Jump (addr + k)) ∧
    (∀ k addr, rebase_op k (.JumpIfFalse addr) = .JumpIfFalse (addr + k)) ∧
    (∀ k addr, rebase_op k (.MakeClosure addr) = .MakeClosure (addr + k)) ∧
    (∀ k addr env, rebase_op k (.Push (.function addr env)) =
      .Push (.function (addr + k) env)) ∧
    (∀ k c f, rebase_op k (.SetupTry c f) =
      .SetupTry (if c ≠ 0 then c + k else 0) (if f ≠ 0 then f + k else 0)) ∧
    (∀ k, rebase_op k (.SetupTry 0 0) = .SetupTry 0 0) ∧
    (∀ k op, addressBearing op = false → rebase_op k op = op) := by
  refine ⟨rfl, ?_, rfl, fun k a => rfl, fun k a => rfl, fun k a => rfl,
    fun k a e => rfl, fun k c f => rfl, fun k => rfl, ?_⟩
  · simp [append_program, rebase_foldl]
  · intro k op h
    cases op <;> try rfl
    all_goals try (simp [addressBearing] at h)
    rename_i v
    cases v <;> try rfl
    simp [addressBearing] at h

/-- C7 witness: instantiates the rebasing theorem on a concrete program
and concrete opcodes. -/
theorem c7_witness :
    (append_program { vm0 with program := [.Halt, .Halt, .Halt] }
        [.Jump 1, .SetupTry 0 2, .Add]).2 = 3 ∧
    (append_program { vm0 with program := [.Halt, .Halt, .Halt] }
        [.Jump 1, .SetupTry 0 2, .Add]).1.program =
      [.Halt, .Halt, .Halt] ++
        [.Jump 1, .SetupTry 0 2, .Add].map (rebase_op 3) ∧
    rebase_op 3 (.Add) = .Add := by
  have h := c7_append_program_rebases
    { vm0 with program := [.Halt, .Halt, .Halt] } [.Jump 1, .SetupTry 0 2, .Add]
  exact ⟨h.1, h.2.1, h.2.2.2.2.2.2.2.2.2 3 .Add rfl⟩

/-! ## C1: Throw unwinding -/

/-- The outcome of the `Throw` dispatch when the topmost handler is `h`
over remaining handlers `rest` (the three branches of mod.rs lines
1703-1739, phrased over the unwinding helpers `truncTo`/`dropFramesTo`). -/
def throwPost (s : VM) (h : ExceptionHandler) (rest : List ExceptionHandler) :
    StepResult :=
  let exc := s.stack.head?.getD .undefined
  let unwoundStack := truncTo h.stack_depth s.stack.tail
  let unwoundCalls := dropFramesTo h.call_stack_depth s.call_stack
  if h.catch_addr ≠ 0 then
    .ok { s with stack := exc :: unwoundStack
                 call_stack := unwoundCalls
                 exception_handlers :=
                   if h.finally_addr ≠ 0 then
                     (ExceptionHandler.mk 0 h.finally_addr
                       ((exc :: unwoundStack).length - 1) h.call_stack_depth) :: rest
                   else rest
                 ip := h.catch_addr } false
  else if h.finally_addr ≠ 0 then
    .ok { s with stack := unwoundStack
                 call_stack := unwoundCalls
                 exception_handlers := rest
                 current_exception := some exc
                 ip := h.finally_addr } false
  else .fatal (.uncaughtException exc)

/-- C1: executing `Throw` with a topmost handler `h` pops that handler
and unwinds to `throwPost`: the operand stack is truncated to exactly
`h.stack_depth` values and the call stack to exactly
`h.call_stack_depth` frames (before the exception value is re-pushed
for a catch block), provided the recorded depths are at most the current
depths at the moment the handler is consulted (i.e. after the thrown
value is popped — spec invariant 3); with no handler installed, `Throw`
is a fatal uncaught-exception error. -/
theorem c1_throw_unwinds (s t : VM) (h : ExceptionHandler)
    (rest : List ExceptionHandler)
    (hop : s.program[s.ip]? = some .Throw)
    (hh : s.exception_handlers = h :: rest)
    (hsd : h.stack_depth ≤ s.stack.tail.length)
    (hcd : h.call_stack_depth ≤ s.call_stack.length)
    (hopt : t.program[t.ip]? = some .Throw)
    (hht : t.exception_handlers = []) :
    exec_one s = throwPost s h rest ∧
    (truncTo h.stack_depth s.stack.tail).length = h.stack_depth ∧
    (dropFramesTo h.call_stack_depth s.call_stack).length = h.call_stack_depth ∧
    exec_one t = .fatal (.uncaughtException (t.stack.head?.getD .undefined)) := by
  refine ⟨?_, truncTo_length _ _ hsd, dropFramesTo_length _ _ hcd, ?_⟩
  · simp [exec_one, hop, execThrow, hh, throwPost]
  · simp [exec_one, hopt, execThrow, hht]

/-- A state about to `Throw` with one handler installed. -/
def c1StateA : VM :=
  { vm0 with stack := [.number (.fin 9), .number (.fin 7)]
             call_stack := [⟨0, [], [], .undefined⟩]
             program := [.Throw]
             exception_handlers := [⟨5, 0, 1, 1⟩] }

/-- A state about to `Throw` with no handler installed. -/
def c1StateB : VM :=
  { vm0 with stack := [.number (.fin 3)], program := [.Throw] }

/-- C1 witness: the theorem applied at concrete states with and without
an installed handler. -/
theorem c1_witness :
    exec_one c1StateA = throwPost c1StateA ⟨5, 0, 1, 1⟩ [] ∧
    (truncTo 1 c1StateA.stack.tail).length = 1 ∧
    (dropFramesTo 1 c1StateA.call_stack).length = 1 ∧
    exec_one c1StateB = .fatal (.uncaughtException (.number (.fin 3))) :=
  c1_throw_unwinds c1StateA c1StateB ⟨5, 0, 1, 1⟩ [] rfl rfl (by decide)
    (by decide) rfl rfl

/-! ## C2: the call-stack depth limit -/

/-- A frame used to build a 1000-deep call stack. -/
def c2Frame : Frame := ⟨0, [], [], .undefined⟩

/-- A state at the depth limit, about to execute `CallSuper` on a
`Function` super-constructor. -/
def c2State : VM :=
  { vm0 with stack := [.function 7 none]
             call_stack := List.replicate 1000 c2Frame
             program := [.CallSuper 0] }

/-- C2 failing input: at call-stack depth exactly 1000 (the hard limit,
reachable since `Call` only rejects once the depth is already ≥ 1000),
`CallSuper` pushes a frame with no depth check at all — the depth
becomes 1001 and execution continues normally instead of stopping with
the fatal stack-overflow error the claim (and spec invariant 5)
requires.  The same omission exists in the getter/setter invocation
paths of `GetProp`/`SetProp`. -/
theorem c2_callsuper_exceeds_depth_limit :
    c2State.call_stack.length = MAX_CALL_STACK_DEPTH ∧
    exec_one c2State =
      .ok { c2State with stack := []
                         call_stack := Frame.mk 1 [] [] .undefined :: c2State.call_stack
                         ip := 7 } false ∧
    (Frame.mk 1 [] [] .undefined :: c2State.call_stack).length =
      MAX_CALL_STACK_DEPTH + 1 := by
  refine ⟨?_, rfl, ?_⟩
  · simp [c2State, vm0, MAX_CALL_STACK_DEPTH]
  · simp [c2State, vm0, MAX_CALL_STACK_DEPTH]

/-! ## C3: truthiness -/

/-- A state about to branch on NaN. -/
def c3State : VM :=
  { vm0 with stack := [.number .nan], program := [.JumpIfFalse 5] }

/-- C3 counterexample: NaN is falsy under the claimed truthiness rule,
yet `JumpIfFalse` does not jump on it — it falls through to `ip = 1`
instead of the target 5 (its test is `n == 0.0`, which is false for
NaN; the empty string likewise does not branch). -/
theorem c3_counterexample :
    specFalsy (.number .nan) = true ∧
    exec_one c3State = .ok { c3State with stack := [], ip := 1 } false ∧
    (1 : Nat) ≠ 5 := ⟨rfl, rfl, by decide⟩

theorem jumpIfFalseFalsy_eq_spec : ∀ v, jumpIfFalseFalsy v = jumpFalsySpec v := by
  intro v
  cases v <;> try rfl
  rename_i b; cases b <;> rfl

theorem notFalsy_eq_specFalsy : ∀ v, notFalsy v = specFalsy v := by
  intro v
  cases v <;> try rfl
  rename_i b; cases b <;> rfl

theorem andOrTruthy_eq_not_jumpFalsy : ∀ v, andOrTruthy v = !jumpFalsySpec v := by
  intro v
  cases v <;> try rfl
  rename_i b; cases b <;> rfl

/-- C3 (amended): the truthiness tests disagree across opcodes.
`JumpIfFalse` pops the value and jumps exactly when it is
`Boolean(false)`, `Null`, `Undefined`, or `Number(0)` (`jumpFalsySpec`);
NaN and every string — including the empty string — fall through.  Only
`Not` implements the claimed rule (`specFalsy`, which also makes NaN and
`""` falsy), while `And`/`Or` treat a value as truthy exactly when
`jumpFalsySpec` is false (NaN and all strings truthy). -/
theorem c3_truthiness (s : VM) (target : Nat) (v : JsValue)
    (rest : List JsValue)
    (hop : s.program[s.ip]? = some (.JumpIfFalse target))
    (hst : s.stack = v :: rest) :
    exec_one s =
      .ok { s with stack := rest
                   ip := if jumpFalsySpec v = true then target else s.ip + 1 }
        false ∧
    (∀ w, jumpIfFalseFalsy w = jumpFalsySpec w) ∧
    (∀ w, notFalsy w = specFalsy w) ∧
    (∀ w, andOrTruthy w = !jumpFalsySpec w) := by
  refine ⟨?_, jumpIfFalseFalsy_eq_spec, notFalsy_eq_specFalsy,
    andOrTruthy_eq_not_jumpFalsy⟩
  cases hv : jumpFalsySpec v
  · have hf : jumpIfFalseFalsy v = false := by
      rw [jumpIfFalseFalsy_eq_spec, hv]
    simp [exec_one, hop, hst, pop?, hf, contOk]
  · have hf : jumpIfFalseFalsy v = true := by
      rw [jumpIfFalseFalsy_eq_spec, hv]
    simp [exec_one, hop, hst, pop?, hf]

/-- A state about to branch on the empty string. -/
def c3StateB : VM :=
  { vm0 with stack := [.string ""], program := [.JumpIfFalse 5] }

/-- C3 witness: the amended theorem applied at a concrete branching
state (on the empty string, which does not branch). -/
theorem c3_witness :
    exec_one c3StateB =
      .ok { c3StateB with stack := []
                          ip := if jumpFalsySpec (.string "") = true then 5 else 1 }
        false ∧
    (∀ w, jumpIfFalseFalsy w = jumpFalsySpec w) ∧
    (∀ w, notFalsy w = specFalsy w) ∧
    (∀ w, andOrTruthy w = !jumpFalsySpec w) :=
  c3_truthiness c3StateB 5 (.string "") [] rfl rfl

/-! ## C6: closure capture -/

theorem containsKey_append (a b : SMap) (k : String) :
    (a ++ b).containsKey k = (a.containsKey k || b.containsKey k) := by
  simp only [SMap.containsKey]
  induction a with
  | nil => simp
  | cons p rest ih =>
    simp only [List.cons_append, List.find?]
    cases h : (p.1 == k) <;> simp [h, ih]

theorem insert_of_not_contains (m : SMap) (k : String) (v : JsValue)
    (h : m.containsKey k = false) : m.insert k v = m ++ [(k, v)] := by
  simp [SMap.insert, h]

/-- Folding `HashMap::insert` over entries with pairwise-distinct keys,
none of which is already bound, just appends the entries. -/
theorem envCopy_append (props : SMap) :
    ∀ m : SMap, (props.map Prod.fst).Nodup →
      (∀ p ∈ props, m.containsKey p.1 = false) →
      envCopy m props = m ++ props := by
  induction props with
  | nil => intro m _ _; simp [envCopy]
  | cons p rest ih =>
    intro m hnd hdis
    have hm : m.containsKey p.1 = false := hdis p (by simp)
    have step : envCopy m (p :: rest) = envCopy (m.insert p.1 p.2) rest := rfl
    rw [step, insert_of_not_contains m p.1 p.2 hm]
    have hnd0 : p.1 ∉ rest.map Prod.fst ∧ (rest.map Prod.fst).Nodup :=
      List.nodup_cons.mp hnd
    have hdis2 : ∀ q ∈ rest, (m ++ [(p.1, p.2)]).containsKey q.1 = false := by
      intro q hq
      rw [containsKey_append]
      have h1 := hdis q (List.mem_cons_of_mem _ hq)
      have hne : (p.1 == q.1) = false := by
        rw [beq_eq_false_iff_ne]
        intro he
        apply hnd0.1
        rw [he]
        exact List.mem_map_of_mem Prod.fst hq
      simp only [h1, Bool.false_or]
      simp [SMap.containsKey, List.find?, hne]
    rw [ih (m ++ [(p.1, p.2)]) hnd0.2 hdis2]
    simp

/-- Copying a captured environment with distinct keys into empty frame
locals reproduces the environment's entries exactly. -/
theorem envCopy_eq_self (props : SMap) (hnd : (props.map Prod.fst).Nodup) :
    envCopy [] props = props := by
  simpa using envCopy_append props [] hnd (fun p _ => rfl)

/-- The task-entry portion of `VM::execute_task` (mod.rs lines
400-446): the depth check, the in-order argument pushes, the
sentinel-frame construction with the captured-environment copy, and the
dispatch on the task's function value.  The subsequent
`run_until_return_sentinel` loop (mod.rs lines 449-462) only iterates
the dispatch already modelled by `exec_one` until the `usize::MAX`
sentinel returns; `.ok s false` here is the state in which that loop
starts. -/
def execute_task_entry (s : VM) (task : Task) : StepResult :=
  if MAX_CALL_STACK_DEPTH ≤ s.call_stack.length then .fatal .stackOverflow
  else
    match task.function_ptr with
    | .function address env =>
      let frame : Frame :=
        { return_address := usizeMax
          locals := loadEnv s.heap env []
          indexed_locals := []
          this_context := .undefined }
      .ok { s with stack := pushAll s.stack task.args
                   call_stack := frame :: s.call_stack
                   ip := address } false
    | .nativeFunction idx => .native s idx task.args
    | _ => .fatal .notCallable

/-- C6: closure-captured environments are call-time copies, across every
user-function call mechanism.  `Let` and `Store` never touch the heap
(their `.ok` outcome always carries the incoming heap, so a
captured-environment object can never be modified by them), and each of
`Call`, `CallMethod` dispatch, `Construct`, `CallSuper` and task
execution, when invoking a `Function` carrying environment handle `e`,
initializes the new frame's locals to exactly the entries of heap
object `e` as they are at call time. -/
theorem c6_closure_capture
    (sL : VM) (nameL : String) (sL' : VM) (bL : Bool)
    (sS : VM) (nameS : String) (sS' : VM) (bS : Bool)
    (sC : VM) (nC addrC eC : Nat) (propsC : SMap) (restC st2C argsC : List JsValue)
    (sM : VM) (nameM : String) (nM ptrM addrM eM : Nat) (propsRM propsM : SMap)
    (restM st2M argsM : List JsValue)
    (sK : VM) (nK addrK eK : Nat) (propsK : SMap) (restK st2K argsK : List JsValue)
    (sU : VM) (nU addrU eU : Nat) (propsU : SMap) (restU st2U argsU : List JsValue)
    (topU : Frame) (csU : List Frame)
    (sT : VM) (addrT eT : Nat) (propsT : SMap) (argsT : List JsValue)
    (hopL : sL.program[sL.ip]? = some (.Let nameL))
    (hexL : exec_one sL = .ok sL' bL)
    (hopS : sS.program[sS.ip]? = some (.Store nameS))
    (hexS : exec_one sS = .ok sS' bS)
    (hopC : sC.program[sC.ip]? = some (.Call nC))
    (hstC : sC.stack = .function addrC (some eC) :: restC)
    (hargsC : popN nC restC = some (argsC, st2C))
    (hheapC : sC.heap[eC]? = some ⟨HeapData.Object propsC⟩)
    (hdepthC : sC.call_stack.length < MAX_CALL_STACK_DEPTH)
    (hndC : (propsC.map Prod.fst).Nodup)
    (hopM : sM.program[sM.ip]? = some (.CallMethod nameM nM))
    (hstM : sM.stack = .object ptrM :: restM)
    (hrecvM : sM.heap[ptrM]? = some ⟨HeapData.Object propsRM⟩)
    (hmethM : get_prop_with_proto_chain sM.heap ptrM nameM = .function addrM (some eM))
    (hargsM : popN nM restM = some (argsM, st2M))
    (hheapM : sM.heap[eM]? = some ⟨HeapData.Object propsM⟩)
    (hdepthM : sM.call_stack.length < MAX_CALL_STACK_DEPTH)
    (hndM : (propsM.map Prod.fst).Nodup)
    (hopK : sK.program[sK.ip]? = some (.Construct nK))
    (hstK : sK.stack = .function addrK (some eK) :: restK)
    (hargsK : popN nK restK = some (argsK, st2K))
    (hheapK : sK.heap[eK]? = some ⟨HeapData.Object propsK⟩)
    (hdepthK : sK.call_stack.length < MAX_CALL_STACK_DEPTH)
    (hndK : (propsK.map Prod.fst).Nodup)
    (hopU : sU.program[sU.ip]? = some (.CallSuper nU))
    (hstU : sU.stack = .function addrU (some eU) :: restU)
    (hargsU : popN nU restU = some (argsU, st2U))
    (hheapU : sU.heap[eU]? = some ⟨HeapData.Object propsU⟩)
    (hcsU : sU.call_stack = topU :: csU)
    (hndU : (propsU.map Prod.fst).Nodup)
    (hheapT : sT.heap[eT]? = some ⟨HeapData.Object propsT⟩)
    (hdepthT : sT.call_stack.length < MAX_CALL_STACK_DEPTH)
    (hndT : (propsT.map Prod.fst).Nodup) :
    sL'.heap = sL.heap ∧ sS'.heap = sS.heap ∧
    exec_one sC = .ok { sC with
      stack := pushAll st2C argsC.reverse
      call_stack := Frame.mk (sC.ip + 1) propsC [] .undefined :: sC.call_stack
      function_call_counts := record_function_call sC.function_call_counts addrC
      ip := addrC } false ∧
    exec_one sM = .ok { sM with
      stack := pushAll st2M argsM.reverse
      call_stack := Frame.mk (sM.ip + 1) propsM [] (.object ptrM) :: sM.call_stack
      ip := addrM } false ∧
    exec_one sK = .ok { sK with
      stack := .object sK.heap.length :: pushAll st2K argsK.reverse
      heap := sK.heap ++ [⟨HeapData.Object []⟩]
      call_stack :=
        Frame.mk (sK.ip + 1) propsK [] (.object sK.heap.length) :: sK.call_stack
      ip := addrK } false ∧
    exec_one sU = .ok { sU with
      stack := pushAll st2U argsU.reverse
      call_stack := Frame.mk (sU.ip + 1) propsU [] topU.this_context :: sU.call_stack
      ip := addrU } false ∧
    execute_task_entry sT ⟨.function addrT (some eT), argsT⟩ = .ok { sT with
      stack := pushAll sT.stack argsT
      call_stack := Frame.mk usizeMax propsT [] .undefined :: sT.call_stack
      ip := addrT } false := by
  refine ⟨?_, ?_, ?_, ?_, ?_, ?_, ?_⟩
  · simp only [exec_one, List.get?_eq_getElem?, hopL] at hexL
    split at hexL
    · simp at hexL
    · simp [contOk] at hexL
      rw [← hexL.1]
  · simp only [exec_one, List.get?_eq_getElem?, hopS] at hexS
    split at hexS
    · simp [contOk] at hexS
      rw [← hexS.1]
    · split at hexS
      · simp at hexS
      · simp [contOk] at hexS
        rw [← hexS.1]
  · have hload : loadEnv sC.heap (some eC) [] = propsC := by
      simp [loadEnv, heapObjProps?, hheapC, envCopy_eq_self propsC hndC]
    simp [exec_one, hopC, execCall, hstC, pop?, hargsC, hload,
      Nat.not_le.mpr hdepthC]
  · have hload : loadEnv sM.heap (some eM) [] = propsM := by
      simp [loadEnv, heapObjProps?, hheapM, envCopy_eq_self propsM hndM]
    simp [exec_one, hopM, execCallMethod, hstM, pop?, hrecvM, hmethM, hargsM,
      hload, Nat.not_le.mpr hdepthM]
  · have helt : eK < sK.heap.length := by
      by_contra hcon
      rw [List.getElem?_eq_none (Nat.le_of_not_lt hcon)] at hheapK
      cases hheapK
    have happ : (sK.heap ++ [(⟨HeapData.Object []⟩ : HeapObject)])[eK]? =
        some ⟨HeapData.Object propsK⟩ := by
      rw [List.getElem?_append_left helt, hheapK]
    have hload : loadEnv (sK.heap ++ [(⟨HeapData.Object []⟩ : HeapObject)])
        (some eK) [] = propsK := by
      simp [loadEnv, heapObjProps?, happ, envCopy_eq_self propsK hndK]
    simp [exec_one, hopK, execConstruct, hstK, pop?, hargsK, hload,
      Nat.not_le.mpr hdepthK]
  · have hload : loadEnv sU.heap (some eU) [] = propsU := by
      simp [loadEnv, heapObjProps?, hheapU, envCopy_eq_self propsU hndU]
    simp [exec_one, hopU, execCallSuper, hstU, pop?, hargsU, hload, hcsU]
  · have hload : loadEnv sT.heap (some eT) [] = propsT := by
      simp [loadEnv, heapObjProps?, hheapT, envCopy_eq_self propsT hndT]
    simp [execute_task_entry, hload, Nat.not_le.mpr hdepthT]

/-- Concrete `Let` state for the C6 witness. -/
def c6sL : VM :=
  { vm0 with stack := [.number (.fin 5)], call_stack := [c2Frame],
             program := [.Let "x"] }

def c6sL2 : VM :=
  { c6sL with stack := []
              call_stack := [⟨0, [("x", .number (.fin 5))], [], .undefined⟩]
              ip := 1 }

/-- Concrete `Store` state for the C6 witness. -/
def c6sS : VM :=
  { vm0 with stack := [.number (.fin 6)], call_stack := [c2Frame],
             program := [.Store "y"] }

def c6sS2 : VM :=
  { c6sS with stack := []
              call_stack := [⟨0, [("y", .number (.fin 6))], [], .undefined⟩]
              ip := 1 }

/-- Concrete `Call`-on-closure state for the C6 witness. -/
def c6sC : VM :=
  { vm0 with stack := [.function 4 (some 0)], call_stack := [c2Frame],
             heap := [⟨HeapData.Object [("n", .number (.fin 1))]⟩],
             program := [.Call 0] }

/-- Concrete `CallMethod`-on-closure state for the C6 witness: heap slot
0 is the receiver carrying method "m", slot 1 its captured
environment. -/
def c6sM : VM :=
  { vm0 with stack := [.object 0], call_stack := [c2Frame],
             heap := [⟨HeapData.Object [("m", .function 9 (some 1))]⟩,
                      ⟨HeapData.Object [("z", .number (.fin 2))]⟩],
             program := [.CallMethod "m" 0] }

/-- Concrete `Construct`-on-closure state for the C6 witness. -/
def c6sK : VM :=
  { vm0 with stack := [.function 4 (some 0)], call_stack := [c2Frame],
             heap := [⟨HeapData.Object [("n", .number (.fin 1))]⟩],
             program := [.Construct 0] }

/-- Concrete `CallSuper`-on-closure state for the C6 witness. -/
def c6sU : VM :=
  { vm0 with stack := [.function 6 (some 0)],
             call_stack := [⟨0, [], [], .object 7⟩],
             heap := [⟨HeapData.Object [("s", .number (.fin 3))]⟩],
             program := [.CallSuper 0] }

/-- Concrete task-execution state for the C6 witness. -/
def c6sT : VM :=
  { vm0 with call_stack := [c2Frame],
             heap := [⟨HeapData.Object [("t", .number (.fin 4))]⟩] }

/-- C6 witness: the theorem applied at concrete `Let`, `Store`, `Call`,
`CallMethod`, `Construct`, `CallSuper` and task-execution states. -/
theorem c6_witness :
    c6sL2.heap = c6sL.heap ∧ c6sS2.heap = c6sS.heap ∧
    exec_one c6sC = .ok { c6sC with
      stack := pushAll [] (List.reverse [])
      call_stack := Frame.mk 1 [("n", .number (.fin 1))] [] .undefined :: c6sC.call_stack
      function_call_counts := record_function_call c6sC.function_call_counts 4
      ip := 4 } false ∧
    exec_one c6sM = .ok { c6sM with
      stack := pushAll [] (List.reverse [])
      call_stack := Frame.mk 1 [("z", .number (.fin 2))] [] (.object 0) :: c6sM.call_stack
      ip := 9 } false ∧
    exec_one c6sK = .ok { c6sK with
      stack := .object c6sK.heap.length :: pushAll [] (List.reverse [])
      heap := c6sK.heap ++ [⟨HeapData.Object []⟩]
      call_stack :=
        Frame.mk 1 [("n", .number (.fin 1))] [] (.object c6sK.heap.length) :: c6sK.call_stack
      ip := 4 } false ∧
    exec_one c6sU = .ok { c6sU with
      stack := pushAll [] (List.reverse [])
      call_stack := Frame.mk 1 [("s", .number (.fin 3))] [] (.object 7) :: c6sU.call_stack
      ip := 6 } false ∧
    execute_task_entry c6sT ⟨.function 2 (some 0), [.number (.fin 8)]⟩ = .ok { c6sT with
      stack := pushAll c6sT.stack [.number (.fin 8)]
      call_stack := Frame.mk usizeMax [("t", .number (.fin 4))] [] .undefined :: c6sT.call_stack
      ip := 2 } false :=
  c6_closure_capture
    c6sL "x" c6sL2 false
    c6sS "y" c6sS2 false
    c6sC 0 4 0 [("n", .number (.fin 1))] [] [] []
    c6sM "m" 0 0 9 1 [("m", .function 9 (some 1))] [("z", .number (.fin 2))] [] [] []
    c6sK 0 4 0 [("n", .number (.fin 1))] [] [] []
    c6sU 0 6 0 [("s", .number (.fin 3))] [] [] [] ⟨0, [], [], .object 7⟩ []
    c6sT 2 0 [("t", .number (.fin 4))] [.number (.fin 8)]
    rfl rfl rfl rfl
    rfl rfl rfl rfl (by decide) (by decide)
    rfl rfl rfl rfl rfl rfl (by decide) (by decide)
    rfl rfl rfl rfl (by decide) (by decide)
    rfl rfl rfl rfl rfl (by decide)
    rfl (by decide) (by decide)

/-! ## C8: binary arithmetic -/

def isNumber : JsValue → Bool
  | .number _ => true
  | _ => false

/-- A `Sub` state with a numeric-string operand. -/
def c8Counter : VM :=
  { vm0 with stack := [.string "3", .number (.fin 1)], program := [.Sub] }

/-- C8 counterexample: `Sub` on operands `1` and `"3"` pushes
`Undefined` — the operands are NOT coerced to numbers as the claim
states (which would require pushing `Number(-2)`). -/
theorem c8_counterexample :
    exec_one c8Counter = .ok { c8Counter with stack := [.undefined], ip := 1 } false ∧
    JsValue.undefined ≠ .number (.fin (-2)) := ⟨rfl, by decide⟩

/-- C8 (amended): `Sub`, `Mul`, `Div`, `Mod` perform NO coercion: they
compute the numeric result only when both popped operands are already
`Number`s; otherwise `Sub`/`Mul`/`Div` push `Undefined` and `Mod` pushes
`NaN` (both operands still consumed).  For `Number` operands the claimed
edge cases hold: dividing a nonzero finite number by zero yields ±∞
(with the dividend's sign), `0/0` is NaN, and `Mod` with divisor zero is
NaN. -/
theorem c8_arithmetic
    (s1 s2 s3 s4 s5 s6 s7 s8 s9 s10 s11 s12 : VM)
    (a1 b1 a2 b2 a3 b3 a4 b4 : F64)
    (r1 r2 r3 r4 : List JsValue)
    (v5 : JsValue) (t5 : List JsValue)
    (n6 : F64) (v6 : JsValue) (r6 : List JsValue)
    (v7 : JsValue) (t7 : List JsValue)
    (v8 : JsValue) (t8 : List JsValue)
    (n9 : F64) (v9 : JsValue) (r9 : List JsValue)
    (v10 : JsValue) (t10 : List JsValue)
    (n11 : F64) (v11 : JsValue) (r11 : List JsValue)
    (n12 : F64) (v12 : JsValue) (r12 : List JsValue)
    (q : ℚ)
    (hop1 : s1.program[s1.ip]? = some .Sub)
    (hst1 : s1.stack = .number b1 :: .number a1 :: r1)
    (hop2 : s2.program[s2.ip]? = some .Mul)
    (hst2 : s2.stack = .number b2 :: .number a2 :: r2)
    (hop3 : s3.program[s3.ip]? = some .Div)
    (hst3 : s3.stack = .number b3 :: .number a3 :: r3)
    (hop4 : s4.program[s4.ip]? = some .Mod)
    (hst4 : s4.stack = .number b4 :: .number a4 :: r4)
    (hop5 : s5.program[s5.ip]? = some .Sub)
    (hst5 : s5.stack = v5 :: t5) (hv5 : isNumber v5 = false)
    (hop6 : s6.program[s6.ip]? = some .Sub)
    (hst6 : s6.stack = .number n6 :: v6 :: r6) (hv6 : isNumber v6 = false)
    (hop7 : s7.program[s7.ip]? = some .Mod)
    (hst7 : s7.stack = v7 :: t7) (hv7 : isNumber v7 = false)
    (hop8 : s8.program[s8.ip]? = some .Mul)
    (hst8 : s8.stack = v8 :: t8) (hv8 : isNumber v8 = false)
    (hop9 : s9.program[s9.ip]? = some .Mul)
    (hst9 : s9.stack = .number n9 :: v9 :: r9) (hv9 : isNumber v9 = false)
    (hop10 : s10.program[s10.ip]? = some .Div)
    (hst10 : s10.stack = v10 :: t10) (hv10 : isNumber v10 = false)
    (hop11 : s11.program[s11.ip]? = some .Div)
    (hst11 : s11.stack = .number n11 :: v11 :: r11) (hv11 : isNumber v11 = false)
    (hop12 : s12.program[s12.ip]? = some .Mod)
    (hst12 : s12.stack = .number n12 :: v12 :: r12) (hv12 : isNumber v12 = false)
    (hq : q ≠ 0) :
    exec_one s1 = .ok { s1 with stack := .number (F64.fsub a1 b1) :: r1, ip := s1.ip + 1 } false ∧
    exec_one s2 = .ok { s2 with stack := .number (F64.fmul a2 b2) :: r2, ip := s2.ip + 1 } false ∧
    exec_one s3 = .ok { s3 with stack := .number (F64.fdiv a3 b3) :: r3, ip := s3.ip + 1 } false ∧
    exec_one s4 = .ok { s4 with stack := .number (if F64.feq b4 (.fin 0) then .nan else F64.fmod a4 b4) :: r4, ip := s4.ip + 1 } false ∧
    exec_one s5 = .ok { s5 with stack := .undefined :: t5.tail, ip := s5.ip + 1 } false ∧
    exec_one s6 = .ok { s6 with stack := .undefined :: r6, ip := s6.ip + 1 } false ∧
    exec_one s7 = .ok { s7 with stack := .number .nan :: t7.tail, ip := s7.ip + 1 } false ∧
    exec_one s8 = .ok { s8 with stack := .undefined :: t8.tail, ip := s8.ip + 1 } false ∧
    exec_one s9 = .ok { s9 with stack := .undefined :: r9, ip := s9.ip + 1 } false ∧
    exec_one s10 = .ok { s10 with stack := .undefined :: t10.tail, ip := s10.ip + 1 } false ∧
    exec_one s11 = .ok { s11 with stack := .undefined :: r11, ip := s11.ip + 1 } false ∧
    exec_one s12 = .ok { s12 with stack := .number .nan :: r12, ip := s12.ip + 1 } false ∧
    F64.fdiv (.fin q) (.fin 0) = .inf (decide (q < 0)) ∧
    F64.fdiv (.fin 0) (.fin 0) = .nan ∧
    F64.fmod (.fin q) (.fin 0) = .nan := by
  refine ⟨?_, ?_, ?_, ?_, ?_, ?_, ?_, ?_, ?_, ?_, ?_, ?_, ?_, ?_, ?_⟩
  · simp [exec_one, hop1, hst1, contOk]
  · simp [exec_one, hop2, hst2, contOk]
  · simp [exec_one, hop3, hst3, contOk]
  · by_cases hc : F64.feq b4 (.fin 0) <;> simp [exec_one, hop4, hst4, contOk, hc]
  · cases v5 <;> first
      | (simp only [isNumber] at hv5; exact Bool.noConfusion hv5)
      | simp [exec_one, hop5, hst5, contOk, List.drop_one]
  · cases v6 <;> first
      | (simp only [isNumber] at hv6; exact Bool.noConfusion hv6)
      | simp [exec_one, hop6, hst6, contOk]
  · cases v7 <;> first
      | (simp only [isNumber] at hv7; exact Bool.noConfusion hv7)
      | simp [exec_one, hop7, hst7, contOk, List.drop_one]
  · cases v8 <;> first
      | (simp only [isNumber] at hv8; exact Bool.noConfusion hv8)
      | simp [exec_one, hop8, hst8, contOk, List.drop_one]
  · cases v9 <;> first
      | (simp only [isNumber] at hv9; exact Bool.noConfusion hv9)
      | simp [exec_one, hop9, hst9, contOk]
  · cases v10 <;> first
      | (simp only [isNumber] at hv10; exact Bool.noConfusion hv10)
      | simp [exec_one, hop10, hst10, contOk, List.drop_one]
  · cases v11 <;> first
      | (simp only [isNumber] at hv11; exact Bool.noConfusion hv11)
      | simp [exec_one, hop11, hst11, contOk]
  · cases v12 <;> first
      | (simp only [isNumber] at hv12; exact Bool.noConfusion hv12)
      | simp [exec_one, hop12, hst12, contOk]
  · simp [F64.fdiv, hq]
  · simp [F64.fdiv]
  · simp [F64.fmod]

def c8s1 : VM :=
  { vm0 with stack := [.number (.fin 2), .number (.fin 7)], program := [.Sub] }

def c8s2 : VM :=
  { vm0 with stack := [.number (.fin 3), .number (.fin 4)], program := [.Mul] }

def c8s3 : VM :=
  { vm0 with stack := [.number (.fin 0), .number (.fin 1)], program := [.Div] }

def c8s4 : VM :=
  { vm0 with stack := [.number (.fin 0), .number (.fin 1)], program := [.Mod] }

def c8s5 : VM :=
  { vm0 with stack := [.string "3", .number (.fin 1)], program := [.Sub] }

def c8s6 : VM :=
  { vm0 with stack := [.number (.fin 1), .boolean true], program := [.Sub] }

def c8s7 : VM :=
  { vm0 with stack := [.undefined], program := [.Mod] }

def c8s8 : VM :=
  { vm0 with stack := [.boolean false, .number (.fin 1)], program := [.Mul] }

def c8s9 : VM :=
  { vm0 with stack := [.number (.fin 1), .null], program := [.Mul] }

def c8s10 : VM :=
  { vm0 with stack := [.string "", .number (.fin 1)], program := [.Div] }

def c8s11 : VM :=
  { vm0 with stack := [.number (.fin 2), .undefined], program := [.Div] }

def c8s12 : VM :=
  { vm0 with stack := [.number (.fin 3), .object 0], program := [.Mod] }

/-- C8 witness: the amended arithmetic theorem applied at concrete
states (including division and modulus by zero). -/
theorem c8_witness :
    exec_one c8s1 = .ok { c8s1 with stack := [.number (F64.fsub (.fin 7) (.fin 2))], ip := 1 } false ∧
    exec_one c8s2 = .ok { c8s2 with stack := [.number (F64.fmul (.fin 4) (.fin 3))], ip := 1 } false ∧
    exec_one c8s3 = .ok { c8s3 with stack := [.number (F64.fdiv (.fin 1) (.fin 0))], ip := 1 } false ∧
    exec_one c8s4 = .ok { c8s4 with stack := [.number (if F64.feq (.fin 0) (.fin 0) then .nan else F64.fmod (.fin 1) (.fin 0))], ip := 1 } false ∧
    exec_one c8s5 = .ok { c8s5 with stack := [.undefined, .number (.fin 1)].tail.tail.cons .undefined, ip := 1 } false ∧
    exec_one c8s6 = .ok { c8s6 with stack := [.undefined], ip := 1 } false ∧
    exec_one c8s7 = .ok { c8s7 with stack := [.number .nan], ip := 1 } false ∧
    exec_one c8s8 = .ok { c8s8 with stack := [.undefined], ip := 1 } false ∧
    exec_one c8s9 = .ok { c8s9 with stack := [.undefined], ip := 1 } false ∧
    exec_one c8s10 = .ok { c8s10 with stack := [.undefined], ip := 1 } false ∧
    exec_one c8s11 = .ok { c8s11 with stack := [.undefined], ip := 1 } false ∧
    exec_one c8s12 = .ok { c8s12 with stack := [.number .nan], ip := 1 } false ∧
    F64.fdiv (.fin 5) (.fin 0) = .inf (decide ((5 : ℚ) < 0)) ∧
    F64.fdiv (.fin 0) (.fin 0) = .nan ∧
    F64.fmod (.fin 5) (.fin 0) = .nan :=
  c8_arithmetic c8s1 c8s2 c8s3 c8s4 c8s5 c8s6 c8s7 c8s8 c8s9 c8s10 c8s11 c8s12
    (.fin 7) (.fin 2) (.fin 4) (.fin 3) (.fin 1) (.fin 0) (.fin 1) (.fin 0)
    [] [] [] []
    (.string "3") [.number (.fin 1)]
    (.fin 1) (.boolean true) []
    .undefined []
    (.boolean false) [.number (.fin 1)]
    (.fin 1) .null []
    (.string "") [.number (.fin 1)]
    (.fin 2) .undefined []
    (.fin 3) (.object 0) []
    5
    rfl rfl rfl rfl rfl rfl rfl rfl rfl rfl (by decide) rfl rfl (by decide)
    rfl rfl (by decide)
    rfl rfl (by decide)
    rfl rfl (by decide)
    rfl rfl (by decide)
    rfl rfl (by decide)
    rfl rfl (by decide)
    (by decide)

/-! ## C9: LoadElement -/

/-- A `LoadElement` whose target handle refers to a non-Array heap
object. -/
def c9Counter : VM :=
  { vm0 with stack := [.number (.fin 0), .object 0],
             heap := [⟨HeapData.Object []⟩], program := [.LoadElement] }

/-- C9 counterexample: `LoadElement` on an Object handle whose heap data
is a plain Object (not an Array), with a Number index, pushes NOTHING —
the resulting stack is empty, not `[Undefined]` as the claim (push
exactly one value) requires; the net stack effect is −2. -/
theorem c9_counterexample :
    exec_one c9Counter = .ok { c9Counter with stack := [], ip := 1 } false ∧
    ([] : List JsValue) ≠ [.undefined] := ⟨rfl, by decide⟩

/-- C9 (amended): `LoadElement` pops an index then a target.  For an
Array handle with a Number index it pushes the element at the (saturated
integer cast of the) index, or `Undefined` out of range; for a String
with a Number index, the character at that index as a one-character
string, or `Undefined`; for an Object handle whose heap slot is NOT an
Array (or is missing) with a Number index it pushes nothing at all (net
stack effect −2); and for every other target/index pair — a target that
is neither an Object handle nor a String, or a non-Number index on any
target, Object and String included — it pushes `Undefined`. -/
theorem c9_load_element
    (s1 s2 s3 s4 s5 s6 : VM)
    (idx1 idx2 idx3 : F64) (ptr1 ptr2 : Nat) (arr : List JsValue)
    (str : String) (v4 i4 : JsValue)
    (r1 r2 r3 r4 : List JsValue)
    (p5 : Nat) (i5 : JsValue) (r5 : List JsValue)
    (str6 : String) (i6 : JsValue) (r6 : List JsValue)
    (hop1 : s1.program[s1.ip]? = some .LoadElement)
    (hst1 : s1.stack = .number idx1 :: .object ptr1 :: r1)
    (hheap1 : s1.heap[ptr1]? = some ⟨HeapData.Array arr⟩)
    (hop2 : s2.program[s2.ip]? = some .LoadElement)
    (hst2 : s2.stack = .number idx2 :: .object ptr2 :: r2)
    (hheap2 : ∀ a : List JsValue, s2.heap[ptr2]? ≠ some ⟨HeapData.Array a⟩)
    (hop3 : s3.program[s3.ip]? = some .LoadElement)
    (hst3 : s3.stack = .number idx3 :: .string str :: r3)
    (hop4 : s4.program[s4.ip]? = some .LoadElement)
    (hst4 : s4.stack = i4 :: v4 :: r4)
    (hv4a : ∀ p, v4 ≠ .object p) (hv4b : ∀ st, v4 ≠ .string st)
    (hop5 : s5.program[s5.ip]? = some .LoadElement)
    (hst5 : s5.stack = i5 :: .object p5 :: r5) (hi5 : isNumber i5 = false)
    (hop6 : s6.program[s6.ip]? = some .LoadElement)
    (hst6 : s6.stack = i6 :: .string str6 :: r6) (hi6 : isNumber i6 = false) :
    exec_one s1 = .ok { s1 with stack := (arr.get? (F64.toUsize idx1)).getD .undefined :: r1, ip := s1.ip + 1 } false ∧
    exec_one s2 = .ok { s2 with stack := r2, ip := s2.ip + 1 } false ∧
    exec_one s3 = .ok { s3 with stack := (((str.toList.get? (F64.toUsize idx3)).map (fun c => JsValue.string c.toString)).getD .undefined) :: r3, ip := s3.ip + 1 } false ∧
    exec_one s4 = .ok { s4 with stack := .undefined :: r4, ip := s4.ip + 1 } false ∧
    exec_one s5 = .ok { s5 with stack := .undefined :: r5, ip := s5.ip + 1 } false ∧
    exec_one s6 = .ok { s6 with stack := .undefined :: r6, ip := s6.ip + 1 } false := by
  refine ⟨?_, ?_, ?_, ?_, ?_, ?_⟩
  · simp [exec_one, hop1, hst1, contOk, hheap1]
  · cases hh : s2.heap[ptr2]? with
    | none => simp [exec_one, hop2, hst2, contOk, hh]
    | some ho =>
      cases ho with
      | mk d =>
        cases d with
        | Array a => exact absurd hh (hheap2 a)
        | Object props => simp [exec_one, hop2, hst2, contOk, hh]
        | ByteStream bytes => simp [exec_one, hop2, hst2, contOk, hh]
  · simp [exec_one, hop3, hst3, contOk]
  · cases v4 <;> first
      | exact absurd rfl (hv4a _)
      | exact absurd rfl (hv4b _)
      | simp [exec_one, hop4, hst4, contOk]
  · cases i5 <;> first
      | (simp only [isNumber] at hi5; exact Bool.noConfusion hi5)
      | simp [exec_one, hop5, hst5, contOk]
  · cases i6 <;> first
      | (simp only [isNumber] at hi6; exact Bool.noConfusion hi6)
      | simp [exec_one, hop6, hst6, contOk]

def c9s1 : VM :=
  { vm0 with stack := [.number (.fin 1), .object 0],
             heap := [⟨HeapData.Array [.number (.fin 8), .number (.fin 9)]⟩],
             program := [.LoadElement] }

def c9s2 : VM :=
  { vm0 with stack := [.number (.fin 0), .object 0],
             heap := [⟨HeapData.Object []⟩], program := [.LoadElement] }

def c9s3 : VM :=
  { vm0 with stack := [.number (.fin 0), .string "ab"],
             program := [.LoadElement] }

def c9s4 : VM :=
  { vm0 with stack := [.number (.fin 0), .null], program := [.LoadElement] }

def c9s5 : VM :=
  { vm0 with stack := [.null, .object 0],
             heap := [⟨HeapData.Array [.number (.fin 8)]⟩],
             program := [.LoadElement] }

def c9s6 : VM :=
  { vm0 with stack := [.undefined, .string "ab"], program := [.LoadElement] }

/-- C9 witness: the amended theorem applied at concrete Array, plain
Object, String and Null targets, and at non-Number indices on an Array
handle and a String. -/
theorem c9_witness :
    exec_one c9s1 = .ok { c9s1 with stack := (([.number (.fin 8), .number (.fin 9)] : List JsValue).get? (F64.toUsize (.fin 1))).getD .undefined :: [], ip := 1 } false ∧
    exec_one c9s2 = .ok { c9s2 with stack := [], ip := 1 } false ∧
    exec_one c9s3 = .ok { c9s3 with stack := ((("ab".toList.get? (F64.toUsize (.fin 0))).map (fun c => JsValue.string c.toString)).getD .undefined) :: [], ip := 1 } false ∧
    exec_one c9s4 = .ok { c9s4 with stack := [.undefined], ip := 1 } false ∧
    exec_one c9s5 = .ok { c9s5 with stack := [.undefined], ip := 1 } false ∧
    exec_one c9s6 = .ok { c9s6 with stack := [.undefined], ip := 1 } false :=
  c9_load_element c9s1 c9s2 c9s3 c9s4 c9s5 c9s6
    (.fin 1) (.fin 0) (.fin 0) 0 0
    [.number (.fin 8), .number (.fin 9)] "ab" .null (.number (.fin 0))
    [] [] [] []
    0 .null [] "ab" .undefined []
    rfl rfl rfl rfl rfl
    (fun a h => by simp [c9s2, vm0] at h)
    rfl rfl rfl rfl
    (fun p h => JsValue.noConfusion h) (fun st h => JsValue.noConfusion h)
    rfl rfl (by decide)
    rfl rfl (by decide)

/-! ## C10: CallMethod on a non-String, non-Object receiver -/

/-- C10: when the receiver popped by `CallMethod` is neither a `String`
nor an `Object` handle, the VM pushes `Undefined` without popping any of
the `n` arguments: the rest of the stack (the arguments included) is
untouched beneath the pushed `Undefined`, so the opcode's net stack
effect is 0 rather than −n. -/
theorem c10_callmethod_other_receiver
    (s : VM) (name : String) (n : Nat) (r : JsValue) (rest : List JsValue)
    (hop : s.program[s.ip]? = some (.CallMethod name n))
    (hst : s.stack = r :: rest)
    (hr1 : ∀ str, r ≠ .string str) (hr2 : ∀ p, r ≠ .object p) :
    exec_one s = .ok { s with stack := .undefined :: rest, ip := s.ip + 1 } false := by
  cases r <;> first
    | exact absurd rfl (hr1 _)
    | exact absurd rfl (hr2 _)
    | simp [exec_one, execCallMethod, hop, hst, pop?, contOk]

def c10State : VM :=
  { vm0 with stack := [.number (.fin 5), .number (.fin 1), .number (.fin 2)],
             program := [.CallMethod "foo" 2] }

/-- C10 witness: a `CallMethod("foo", 2)` on a `Number` receiver with
two arguments on the stack leaves both arguments in place beneath the
pushed `Undefined`. -/
theorem c10_witness :
    exec_one c10State =
      .ok { c10State with stack := [.undefined, .number (.fin 1), .number (.fin 2)], ip := 1 } false :=
  c10_callmethod_other_receiver c10State "foo" 2 (.number (.fin 5))
    [.number (.fin 1), .number (.fin 2)] rfl rfl
    (fun _ h => JsValue.noConfusion h) (fun _ h => JsValue.noConfusion h)

end Oite
